import Mathlib

/-!
Verification development for the Satellite client-side replication engine
(oplog capture, snapshot stamping, merge/conflict resolution, apply,
shape subscriptions, snapshot mutex and the connection controller).

The engine itself ships outside this repository; only its test suite is
present here. The definitions below are therefore modelled from the
specification (sections 3 to 7), with the concrete expectations of the
test suite fixing the behaviour wherever the specification is ambiguous.
-/

set_option autoImplicit false

/-- A SQL value as stored in a replicated row: NULL, an integer or a text. -/
inductive SqlValue where
  | null
  | int (i : Int)
  | text (s : String)
deriving Repr, DecidableEq

/-- A row (or partial record) is an association list from column names to values.
A column absent from the list was not supplied at all, which is distinct from an
explicit `SqlValue.null`. -/
abbrev Row := List (String × SqlValue)

/-- First value bound to a key in an association list, if any. -/
def alookup {A : Type} (l : List (String × A)) (c : String) : Option A :=
  (l.find? (fun p => decide (p.1 = c))).map (fun p => p.2)

/-- Replace the first binding of a key, or append a new one. -/
def aset {A : Type} : List (String × A) → String → A → List (String × A)
  | [], c, x => [(c, x)]
  | p :: rest, c, x =>
      if p.1 = c then (c, x) :: rest else p :: aset rest c x

/-- Apply a batch of bindings over a base association list, in order. -/
def asetAll {A : Type} (l : List (String × A)) (upd : List (String × A)) :
    List (String × A) :=
  upd.foldl (fun acc p => aset acc p.1 p.2) l

/-- First value bound to a column name in a row, if any. -/
def rowLookup (r : Row) (c : String) : Option SqlValue :=
  alookup r c

/-- Modelled from the spec: a causal tag is `origin@timestamp` (section 3). -/
structure Tag where
  origin : String
  timestamp : Nat
deriving Repr, DecidableEq

/-- Modelled from the spec: `generate(origin, timestamp) → Tag` (section 4.1). -/
def generateTag (origin : String) (timestamp : Nat) : Tag :=
  { origin := origin, timestamp := timestamp }

/-- Oplog operation types (section 3). -/
inductive OpType where
  | insert
  | update
  | delete
  | upsert
  | gone
deriving Repr, DecidableEq

/-- Modelled from the spec: an oplog entry after snapshot stamping (section 3).
For incoming entries `clearTags` carries the wire tag set of the change. -/
structure OplogEntry where
  rowid : Nat
  tablename : String
  optype : OpType
  primaryKey : Row
  newRow : Option Row
  oldRow : Option Row
  timestamp : Nat
  clearTags : List Tag
deriving Repr, DecidableEq

/-- Modelled from the spec: a raw trigger capture before the snapshot assigned
a timestamp and clear tags (section 4.3 step 2). -/
structure RawEntry where
  rowid : Nat
  tablename : String
  optype : OpType
  primaryKey : Row
  newRow : Option Row
  oldRow : Option Row
deriving Repr, DecidableEq

/-- A foreign key of a table: a child column referencing a parent column. -/
structure FkSpec where
  childCol : String
  parentTable : String
  parentCol : String
deriving Repr, DecidableEq

/-- A column of a replicated table, with its optional schema default value. -/
structure ColumnInfo where
  name : String
  dflt : Option SqlValue
deriving Repr, DecidableEq

/-- Modelled from the spec: the schema information the merge and apply engines
receive for one table (`relations` parameter, section 4.4). -/
structure Relation where
  table : String
  pkCols : List String
  columns : List ColumnInfo
  fks : List FkSpec
deriving Repr, DecidableEq

/-- The relations cache passed to the merge engine. -/
abbrev RelationsCache := List Relation

/-- Find the relation describing a table. -/
def lookupRelation (rels : RelationsCache) (t : String) : Option Relation :=
  rels.find? (fun r => decide (r.table = t))

/-- Per-column changes: column name, value, and the timestamp of the writer. -/
abbrev Changes := List (String × SqlValue × Nat)

/-- First change recorded for a column. -/
def lookupChange (cs : Changes) (c : String) : Option (SqlValue × Nat) :=
  alookup cs c

/-- Overwrite (or add) the change recorded for one column. -/
def setChange (cs : Changes) (c : String) (v : SqlValue) (t : Nat) : Changes :=
  aset cs c (v, t)

/-- Apply a batch of column changes over an accumulated change set. -/
def setChanges (cs : Changes) (upd : Changes) : Changes :=
  asetAll cs upd

/-- All columns of a row, each carrying one timestamp. -/
def rowToChanges (r : Row) (ts : Nat) : Changes :=
  r.map (fun p => (p.1, p.2, ts))

/-- Modelled from the spec: the columns an entry contributes to the per-column
merge. Inserts contribute every column of the new row; updates contribute only
the columns whose value differs from the old row (section 4.4 step 1, refined
by the concurrent-update behaviour in section 4.4). -/
def changedColumns (e : OplogEntry) : Changes :=
  match e.optype with
  | OpType.update =>
      (e.newRow.getD []).filterMap (fun p =>
        if rowLookup (e.oldRow.getD []) p.1 = some p.2 then none
        else some (p.1, p.2, e.timestamp))
  | _ => rowToChanges (e.newRow.getD []) e.timestamp

/-- Modelled from the spec: explicit nulls for every relation column that the
new insert did not supply (section 4.3, INSERT immediately following a DELETE). -/
def nullChangesFor (rel : Option Relation) (supplied : Row) (ts : Nat) : Changes :=
  match rel with
  | none => []
  | some rel =>
      (rel.columns.filter (fun c => (rowLookup supplied c.name).isNone)).map
        (fun c => (c.name, SqlValue.null, ts))

/-- The aggregated local changes for one primary key (the local half of the
merge engine input). -/
structure OplogEntryChanges where
  tablename : String
  primaryKeyCols : Row
  optype : OpType
  changes : Changes
  tag : Option Tag
deriving Repr, DecidableEq

/-- The aggregate before any local entry was folded in. -/
def emptyLocalChanges (table : String) (pk : Row) : OplogEntryChanges :=
  { tablename := table, primaryKeyCols := pk, optype := OpType.upsert,
    changes := [], tag := none }

/-- Modelled from the spec: fold one local oplog entry into the per-key
aggregate. A delete clears the local tag; an insert arriving after a delete in
the same window first writes explicit nulls for the columns it does not supply
(sections 4.3 and 4.4). -/
def foldLocalEntry (clientId : String) (rel : Option Relation)
    (acc : OplogEntryChanges) (e : OplogEntry) : OplogEntryChanges :=
  match e.optype with
  | OpType.delete => { acc with optype := OpType.delete, tag := none }
  | _ =>
      let supplied := e.newRow.getD []
      let nulls :=
        if acc.optype = OpType.delete then nullChangesFor rel supplied e.timestamp
        else []
      { acc with
          optype := OpType.upsert,
          changes := setChanges acc.changes (nulls ++ changedColumns e),
          tag := some (generateTag clientId e.timestamp) }

/-- Entries of a list that touch one (table, primary key) pair, in order. -/
def entriesFor (entries : List OplogEntry) (table : String) (pk : Row) : List OplogEntry :=
  entries.filter (fun e => decide (e.tablename = table ∧ e.primaryKey = pk))

/-- Modelled from the spec: `localOperationsToTableChanges` restricted to one
(table, primary key) pair (section 4.4 input preparation). -/
def localChangesFor (clientId : String) (rels : RelationsCache)
    (entries : List OplogEntry) (table : String) (pk : Row) : OplogEntryChanges :=
  (entriesFor entries table pk).foldl
    (foldLocalEntry clientId (lookupRelation rels table))
    (emptyLocalChanges table pk)

/-- The aggregated incoming changes for one primary key (the remote half of
the merge engine input). -/
structure ShadowEntryChanges where
  optype : OpType
  changes : Changes
  fullRow : Row
  tags : List Tag
  lastTs : Nat
deriving Repr, DecidableEq

/-- Modelled from the spec: one incoming entry as a remote aggregate. -/
def remoteEntryToChanges (e : OplogEntry) : ShadowEntryChanges :=
  match e.optype with
  | OpType.delete =>
      { optype := OpType.delete, changes := [], fullRow := e.oldRow.getD [],
        tags := e.clearTags, lastTs := e.timestamp }
  | _ =>
      { optype := OpType.upsert, changes := changedColumns e,
        fullRow := e.newRow.getD [], tags := e.clearTags, lastTs := e.timestamp }

/-- Replace (or add) one column of a row. -/
def setRowCol (r : Row) (c : String) (v : SqlValue) : Row :=
  aset r c v

/-- Apply a batch of column values over a base row. -/
def patchRow (base : Row) (upd : Row) : Row :=
  asetAll base upd

/-- Modelled from the spec: fold one incoming entry into the per-key remote
aggregate. A DELETE that shares its timestamp with the INSERT already folded in
is a concurrent pair and is dropped: the insert wins (section 4.4, INSERT wins
over DELETE). -/
def foldRemoteEntry (acc : Option ShadowEntryChanges) (e : OplogEntry) :
    Option ShadowEntryChanges :=
  match acc with
  | none => some (remoteEntryToChanges e)
  | some a =>
      match e.optype with
      | OpType.delete =>
          if a.optype = OpType.upsert ∧ a.lastTs = e.timestamp then some a
          else
            some { optype := OpType.delete, changes := a.changes,
                   fullRow := e.oldRow.getD [], tags := e.clearTags,
                   lastTs := e.timestamp }
      | _ =>
          let tags :=
            if a.optype = OpType.delete ∧ a.lastTs = e.timestamp then
              a.tags ++ e.clearTags.filter (fun t => decide (t ∉ a.tags))
            else e.clearTags
          some { optype := OpType.upsert,
                 changes := setChanges a.changes (changedColumns e),
                 fullRow := patchRow a.fullRow (e.newRow.getD []),
                 tags := tags, lastTs := e.timestamp }

/-- Modelled from the spec: per-column last-writer-wins pick, the incoming
value winning an exact timestamp tie (section 4.4 step 1). -/
def lwwPick (localC remoteC : Changes) (c : String) : Option (SqlValue × Nat) :=
  match lookupChange localC c, lookupChange remoteC c with
  | some (v, t), some (w, u) => some (if t > u then (v, t) else (w, u))
  | some (v, t), none => some (v, t)
  | none, o => o

/-- Modelled from the spec: merge the local and remote column changes by
last-writer-wins over the union of their column sets (section 4.4 step 1). -/
def mergeChangesLWW (localC remoteC : Changes) : Changes :=
  ((localC.map (fun p => p.1) ++ remoteC.map (fun p => p.1)).dedup).filterMap
    (fun c => (lwwPick localC remoteC c).map (fun vt => (c, vt)))

/-- Modelled from the spec: the resolved per-key merge output (section 4.4). -/
structure ResolvedRow where
  tablename : String
  primaryKeyCols : Row
  optype : OpType
  changes : Changes
  fullRow : Row
  tags : List Tag
deriving Repr, DecidableEq

/-- Project a change set onto its column values. -/
def changesToRow (cs : Changes) : Row :=
  cs.map (fun p => (p.1, p.2.1))

/-- Modelled from the spec: resolve one primary key from its local and remote
aggregates. The final tag set unions the surviving local tag with the remote
tags; an empty final tag set means the row is deleted (section 4.4 steps 2
and 3). -/
def mergeLocalRemote (table : String) (pk : Row) (l : OplogEntryChanges)
    (r : ShadowEntryChanges) : ResolvedRow :=
  let changes := mergeChangesLWW l.changes r.changes
  let ltags := l.tag.toList
  let tags := ltags ++ r.tags.filter (fun t => decide (t ∉ ltags))
  { tablename := table, primaryKeyCols := pk,
    optype := if tags.isEmpty then OpType.delete else OpType.upsert,
    changes := changes,
    fullRow := patchRow r.fullRow (changesToRow changes),
    tags := tags }

/-- Modelled from the spec: `mergeEntries` at one (table, primary key) pair.
Produces a resolved row exactly when the incoming entries touch the key
(section 4.4). -/
def mergeEntriesAt (clientId : String) (localEntries : List OplogEntry)
    (incomingOrigin : String) (incoming : List OplogEntry)
    (rels : RelationsCache) (table : String) (pk : Row) : Option ResolvedRow :=
  match (entriesFor incoming table pk).foldl foldRemoteEntry none with
  | none => none
  | some r =>
      some (mergeLocalRemote table pk
        (localChangesFor clientId rels localEntries table pk) r)

/-- Lookup in a (table, primary key) keyed association list. -/
def getAssoc2 {A : Type} (l : List (String × Row × A)) (t : String) (pk : Row) :
    Option A :=
  (l.find? (fun e => decide (e.1 = t ∧ e.2.1 = pk))).map (fun e => e.2.2)

/-- Replace the first (table, primary key) binding, or append a new one. -/
def putAssoc2 {A : Type} : List (String × Row × A) → String → Row → A →
    List (String × Row × A)
  | [], t, pk, a => [(t, pk, a)]
  | e :: rest, t, pk, a =>
      if e.1 = t ∧ e.2.1 = pk then (t, pk, a) :: rest
      else e :: putAssoc2 rest t pk a

/-- Remove every (table, primary key) binding. -/
def removeAssoc2 {A : Type} (l : List (String × Row × A)) (t : String) (pk : Row) :
    List (String × Row × A) :=
  l.filter (fun e => !(decide (e.1 = t ∧ e.2.1 = pk)))

/-- Modelled from the spec: the replicated database and engine state one client
holds: user rows, shadow rows, raw trigger output, the stamped oplog, the
acknowledged LSN and the trigger switch (sections 3 and 4.5). -/
structure SatState where
  rows : List (String × Row × Row)
  shadow : List (String × Row × List Tag)
  raw : List RawEntry
  oplog : List OplogEntry
  lsn : Nat
  triggersEnabled : Bool
  nextRowid : Nat
deriving Repr, DecidableEq

/-- The shadow tag set currently held for a row (empty when no shadow row). -/
def shadowTags (st : SatState) (t : String) (pk : Row) : List Tag :=
  (getAssoc2 st.shadow t pk).getD []

/-- Modelled from the spec: a database write. When capture triggers are
enabled it also records a raw oplog entry, exactly as a local SQL write would
(section 4.3); the apply engine runs with triggers disabled (section 4.5). -/
def dbWriteRow (s : SatState) (t : String) (pk : Row) (row : Row) : SatState :=
  let s1 := { s with rows := putAssoc2 s.rows t pk row }
  if s.triggersEnabled then
    { s1 with
        raw := s1.raw ++ [{ rowid := s.nextRowid, tablename := t,
                            optype := OpType.update, primaryKey := pk,
                            newRow := some row, oldRow := none }],
        nextRowid := s.nextRowid + 1 }
  else s1

/-- Modelled from the spec: a database delete, trigger-aware like `dbWriteRow`. -/
def dbDeleteRow (s : SatState) (t : String) (pk : Row) : SatState :=
  let s1 := { s with rows := removeAssoc2 s.rows t pk }
  if s.triggersEnabled then
    { s1 with
        raw := s1.raw ++ [{ rowid := s.nextRowid, tablename := t,
                            optype := OpType.delete, primaryKey := pk,
                            newRow := none, oldRow := none }],
        nextRowid := s.nextRowid + 1 }
  else s1

/-- Modelled from the spec: an incoming replication transaction (section 6),
its changes already decoded to oplog entries. -/
structure Transaction where
  origin : String
  commit_timestamp : Nat
  changes : List OplogEntry
  lsn : Nat
deriving Repr, DecidableEq

/-- The (table, primary key) pairs a transaction touches. -/
def txKeys (changes : List OplogEntry) : List (String × Row) :=
  changes.map (fun e => (e.tablename, e.primaryKey))

/-- Modelled from the spec: apply the resolved merge output for one key:
upserts write the full resolved row and set the shadow tags, deletes remove
the row and its shadow entry (section 4.5 steps 3 and 4). -/
def applyResolvedAt (clientId : String) (rels : RelationsCache)
    (localEntries : List OplogEntry) (incomingOrigin : String)
    (incoming : List OplogEntry) (s : SatState) (tp : String × Row) : SatState :=
  match mergeEntriesAt clientId localEntries incomingOrigin incoming rels tp.1 tp.2 with
  | none => s
  | some pc =>
      if pc.optype = OpType.delete then
        let s1 := dbDeleteRow s tp.1 tp.2
        { s1 with shadow := removeAssoc2 s1.shadow tp.1 tp.2 }
      else
        let s1 := dbWriteRow s tp.1 tp.2 pc.fullRow
        { s1 with shadow := putAssoc2 s1.shadow tp.1 tp.2 pc.tags }

/-- Modelled from the spec: apply one incoming transaction. Capture triggers
are disabled for the duration, the merge runs against the local oplog entries
the transaction does not acknowledge, defensively trigger-generated raw
entries are deleted before commit, the LSN advances, and a transaction whose
origin is this client garbage-collects every acknowledged oplog entry
(section 4.5). -/
def _applyTransaction (clientId : String) (rels : RelationsCache)
    (st : SatState) (tx : Transaction) : SatState :=
  let saveTriggers := st.triggersEnabled
  let startRowid := st.nextRowid
  let localEntries :=
    if tx.origin = clientId then
      st.oplog.filter (fun e => decide (tx.commit_timestamp < e.timestamp))
    else st.oplog
  let st0 := { st with triggersEnabled := false }
  let st1 := (txKeys tx.changes).foldl
    (applyResolvedAt clientId rels localEntries tx.origin tx.changes) st0
  let st2 := { st1 with
      raw := st1.raw.filter (fun r => decide (r.rowid < startRowid)),
      triggersEnabled := saveTriggers,
      lsn := tx.lsn }
  if tx.origin = clientId then
    { st2 with
        oplog := st2.oplog.filter (fun e => decide (tx.commit_timestamp < e.timestamp)) }
  else st2

/-- The local oplog entries a snapshot has stamped (what the sender reads). -/
def _getEntries (st : SatState) : List OplogEntry :=
  st.oplog

/-- Modelled from the spec: delete every oplog entry at or before an
acknowledged timestamp (section 4.5 step 5). -/
def _garbageCollectOplog (st : SatState) (ts : Nat) : SatState :=
  { st with oplog := st.oplog.filter (fun e => decide (ts < e.timestamp)) }

/-- Modelled from the spec, corrected by the DELETE-after-DELETE test: stamp
one raw entry at snapshot time. Inserts get exactly the new tag; updates and
deletes of a row holding a shadow entry get the new tag together with the
shadow tags; updates and deletes of a row with no shadow entry (created inside
the same window) keep an empty clear-tag set (section 4.3 step 2). -/
def stampEntry (clientId : String) (ts : Nat) (shadow : List (String × Row × List Tag))
    (r : RawEntry) : OplogEntry :=
  let newTag := generateTag clientId ts
  let ct : List Tag :=
    match r.optype with
    | OpType.insert => [newTag]
    | _ =>
        match getAssoc2 shadow r.tablename r.primaryKey with
        | some tags => newTag :: tags
        | none => []
  { rowid := r.rowid, tablename := r.tablename, optype := r.optype,
    primaryKey := r.primaryKey, newRow := r.newRow, oldRow := r.oldRow,
    timestamp := ts, clearTags := ct }

/-- The last raw operation of the window for one key. -/
def lastRawFor (raw : List RawEntry) (t : String) (pk : Row) : Option RawEntry :=
  (raw.filter (fun r => decide (r.tablename = t ∧ r.primaryKey = pk))).getLast?

/-- Modelled from the spec: after stamping, the shadow tag set of every key
whose last window operation was an insert or update becomes the singleton new
tag, and keys whose last operation was a delete lose their shadow row
(section 4.3 step 3). -/
def updateShadowAfterSnapshot (clientId : String) (ts : Nat)
    (shadow : List (String × Row × List Tag)) (raw : List RawEntry) :
    List (String × Row × List Tag) :=
  (raw.map (fun r => (r.tablename, r.primaryKey))).foldl
    (fun sh tp =>
      match lastRawFor raw tp.1 tp.2 with
      | none => sh
      | some r =>
          if r.optype = OpType.delete then removeAssoc2 sh tp.1 tp.2
          else putAssoc2 sh tp.1 tp.2 [generateTag clientId ts])
    shadow

/-- Modelled from the spec: a snapshot drains the raw trigger output, stamps
every captured entry with the snapshot timestamp and its clear tags, appends
the stamped entries to the oplog and updates the shadow rows (section 4.3). -/
def _performSnapshot (clientId : String) (ts : Nat) (st : SatState) : SatState :=
  let stamped := st.raw.map (stampEntry clientId ts st.shadow)
  { st with
      oplog := st.oplog ++ stamped,
      raw := [],
      shadow := updateShadowAfterSnapshot clientId ts st.shadow st.raw }

/-- The error kinds of the engine (section 7). -/
inductive SatelliteErrorCode where
  | INTERNAL
  | AUTH_REQUIRED
  | AUTH_EXPIRED
  | BEHIND_WINDOW
  | CONNECTION_CANCELLED_BY_DISCONNECT
  | TABLE_NOT_FOUND
  | SUBSCRIPTION_ALREADY_EXISTS
  | FK_VIOLATION
  | SHAPE_DELIVERY_ERROR
deriving Repr, DecidableEq

/-- An engine error: a kind and a message. -/
structure SatelliteError where
  code : SatelliteErrorCode
  message : String
deriving Repr, DecidableEq

/-- The snapshot scheduler state: whether a snapshot is in flight and whether
a throttled caller queued the next one. -/
structure SnapshotSched where
  performingSnapshot : Bool
  queued : Bool
deriving Repr, DecidableEq

/-- A snapshot request: either a direct `_performSnapshot` call or a call
through the throttled variant. -/
inductive SnapCall where
  | direct
  | throttled
deriving Repr, DecidableEq

/-- Modelled from the spec: the snapshot mutex. A direct call while a snapshot
is in flight fails with INTERNAL `already performing snapshot`; a throttled
call during an in-flight snapshot coalesces onto the next snapshot and
resolves without error (sections 4.3 step 1 and 5). -/
def snapshotCallStep (m : SnapshotSched) (c : SnapCall) :
    Except SatelliteError Unit × SnapshotSched :=
  match c with
  | SnapCall.direct =>
      if m.performingSnapshot then
        (Except.error { code := SatelliteErrorCode.INTERNAL,
                        message := "already performing snapshot" }, m)
      else (Except.ok (), { m with performingSnapshot := true })
  | SnapCall.throttled =>
      if m.performingSnapshot then (Except.ok (), { m with queued := true })
      else (Except.ok (), { m with performingSnapshot := true })

/-- Run a sequence of snapshot requests, collecting each immediate outcome. -/
def runSnapshotCalls (m : SnapshotSched) : List SnapCall →
    List (Except SatelliteError Unit) × SnapshotSched
  | [] => ([], m)
  | c :: cs =>
      let r := snapshotCallStep m c
      let rest := runSnapshotCalls r.2 cs
      (r.1 :: rest.1, rest.2)

/-- The events a pending `connectWithBackoff` call can observe, in order. -/
inductive ConnEvent where
  | retryableFailure
  | disconnectCall
  | attemptSucceeds
deriving Repr, DecidableEq

/-- The resolution of a `connectWithBackoff` call. -/
inductive ConnOutcome where
  | connected
  | failedWith (code : SatelliteErrorCode)
  | pending
deriving Repr, DecidableEq

/-- Modelled from the spec: the retry loop of `connectWithBackoff`. Retryable
failures keep the future pending; a successful attempt resolves it; a
`disconnect()` while it is pending rejects it with
CONNECTION_CANCELLED_BY_DISCONNECT (sections 4.7 and 5). -/
def connectWithBackoff : List ConnEvent → ConnOutcome
  | [] => ConnOutcome.pending
  | ConnEvent.attemptSucceeds :: _ => ConnOutcome.connected
  | ConnEvent.disconnectCall :: _ =>
      ConnOutcome.failedWith SatelliteErrorCode.CONNECTION_CANCELLED_BY_DISCONNECT
  | ConnEvent.retryableFailure :: rest => connectWithBackoff rest

/-- A shape definition: the table it selects (section 4.6). -/
structure Shape where
  tablename : String
deriving Repr, DecidableEq

/-- The persisted subscription manager state (section 4.6 persistence). -/
structure SubsState where
  active : List (String × List Shape)
  known : List (String × List Shape)
  unfulfilled : List (String × List Shape)
  unsubscribes : List String
deriving Repr, DecidableEq

/-- The empty persisted subscription state. -/
def emptySubsState : SubsState :=
  { active := [], known := [], unfulfilled := [], unsubscribes := [] }

/-- The shape-facing database: rows delivered by shapes, and the persisted
subscription manager state. -/
structure ShapeDb where
  rows : List (String × Row)
  subs : SubsState
deriving Repr, DecidableEq

/-- Whether a table is known to the relations cache. -/
def knownTable (rels : RelationsCache) (t : String) : Bool :=
  (lookupRelation rels t).isSome

/-- Modelled from the spec: a delivered row satisfies its foreign keys when
every non-null child column value has a matching parent row among the rows
visible at apply time (section 4.6 failure condition). -/
def fkRowOk (allRows : List (String × Row)) (rel : Relation) (row : Row) : Bool :=
  rel.fks.all (fun fk =>
    match rowLookup row fk.childCol with
    | none => true
    | some SqlValue.null => true
    | some v =>
        allRows.any (fun p =>
          decide (p.1 = fk.parentTable) && decide (rowLookup p.2 fk.parentCol = some v)))

/-- Modelled from the spec: whether the initial shape data applies cleanly:
every change names a known table and satisfies the foreign keys (section 4.6). -/
def applyShapeDataOk (rels : RelationsCache) (existing : List (String × Row))
    (changes : List (String × Row)) : Bool :=
  changes.all (fun c => knownTable rels c.1) &&
  changes.all (fun c =>
    match lookupRelation rels c.1 with
    | some rel => fkRowOk (existing ++ changes) rel c.2
    | none => false)

/-- The resolution of a subscription `synced` future. -/
inductive SyncedResult where
  | ok
  | err (code : SatelliteErrorCode)
deriving Repr, DecidableEq

/-- Modelled from the spec: deliver the initial data of a subscription. On
success the rows land and the subscription becomes active; on failure the
attempt is rolled back, the whole shape state is garbage-collected (rows and
persisted subscription records), and the error surfaces on `synced`
(section 4.6 failure and GC). -/
def subscribeApply (rels : RelationsCache) (st : ShapeDb) (key : String)
    (shapes : List Shape) (data : List (String × Row)) : ShapeDb × SyncedResult :=
  if applyShapeDataOk rels st.rows data then
    ({ rows := st.rows ++ data,
       subs := { st.subs with active := st.subs.active ++ [(key, shapes)] } },
     SyncedResult.ok)
  else
    ({ rows := [], subs := emptySubsState },
     SyncedResult.err SatelliteErrorCode.SHAPE_DELIVERY_ERROR)

/-- Modelled from the spec: apply one incoming INSERT record to a table.
Columns present in the record (an explicit null included) are stored as given;
columns the record omits take the schema default value of the column, or NULL
when the column has none (section 4.5 step 3 write semantics). -/
def applyIncomingInsertRow (rel : Relation) (record : Row) : Row :=
  rel.columns.map (fun c =>
    (c.name,
      match rowLookup record c.name with
      | some v => v
      | none => c.dflt.getD SqlValue.null))

theorem alookup_nil {A : Type} (c : String) :
    alookup ([] : List (String × A)) c = none := rfl

theorem alookup_cons {A : Type} (p : String × A) (l : List (String × A)) (c : String) :
    alookup (p :: l) c = if p.1 = c then some p.2 else alookup l c := by
  by_cases h : p.1 = c
  · simp [alookup, List.find?_cons_of_pos, h]
  · simp [alookup, List.find?_cons_of_neg, h]

theorem alookup_aset {A : Type} (l : List (String × A)) (c : String) (x : A)
    (d : String) :
    alookup (aset l c x) d = if d = c then some x else alookup l d := by
  induction l with
  | nil =>
      simp only [aset]
      rw [alookup_cons]
      by_cases h : d = c
      · rw [if_pos h.symm, if_pos h]
      · rw [if_neg (fun hh => h hh.symm), if_neg h, alookup_nil]
  | cons p rest ih =>
      simp only [aset]
      by_cases hp : p.1 = c
      · rw [if_pos hp, alookup_cons, alookup_cons]
        by_cases hd : d = c
        · rw [if_pos (show c = d from hd.symm), if_pos hd]
        · rw [if_neg (show ¬c = d from fun hh => hd hh.symm), if_neg hd,
              if_neg (show ¬p.1 = d from fun hh => hd (hh.symm.trans hp))]
      · rw [if_neg hp, alookup_cons, alookup_cons]
        by_cases hpd : p.1 = d
        · have hdc : ¬d = c := fun hh => hp (hpd.trans hh)
          rw [if_pos hpd, if_neg hdc, if_pos hpd]
        · rw [if_neg hpd, ih]
          by_cases hd : d = c
          · rw [if_pos hd, if_pos hd]
          · rw [if_neg hd, if_neg hd, if_neg hpd]

theorem alookup_eq_none_iff {A : Type} (l : List (String × A)) (c : String) :
    alookup l c = none ↔ c ∉ l.map Prod.fst := by
  induction l with
  | nil => simp [alookup_nil]
  | cons p rest ih =>
      rw [alookup_cons, List.map_cons, List.mem_cons]
      by_cases h : p.1 = c
      · rw [if_pos h]
        constructor
        · intro hn
          exact absurd hn (Option.some_ne_none _)
        · intro hn
          exact absurd (Or.inl h.symm) hn
      · rw [if_neg h, ih]
        constructor
        · intro hn hmem
          rcases hmem with hh | hh
          · exact h hh.symm
          · exact hn hh
        · intro hn hh
          exact hn (Or.inr hh)

theorem mem_of_alookup_eq_some {A : Type} {l : List (String × A)} {c : String}
    {x : A} (h : alookup l c = some x) : (c, x) ∈ l := by
  induction l with
  | nil => simp [alookup_nil] at h
  | cons p rest ih =>
      obtain ⟨a, b⟩ := p
      by_cases hp : a = c
      · rw [alookup_cons, if_pos hp] at h
        injection h with hx
        rw [← hp, ← hx]
        exact List.mem_cons_self _ _
      · rw [alookup_cons, if_neg hp] at h
        exact List.mem_cons_of_mem _ (ih h)

theorem alookup_of_mem_nodup {A : Type} {l : List (String × A)}
    (hnd : (l.map Prod.fst).Nodup) {c : String} {x : A} (hm : (c, x) ∈ l) :
    alookup l c = some x := by
  induction l with
  | nil => simp at hm
  | cons p rest ih =>
      rcases List.mem_cons.mp hm with h | h
      · rw [← h, alookup_cons]
        simp
      · have hp : ¬p.1 = c := by
          intro hh
          have : c ∈ rest.map Prod.fst := List.mem_map_of_mem Prod.fst h
          rw [List.map_cons] at hnd
          exact (List.nodup_cons.mp hnd).1 (hh ▸ this)
        rw [alookup_cons, if_neg hp]
        exact ih (List.nodup_cons.mp (List.map_cons Prod.fst p rest ▸ hnd)).2 h

theorem asetAll_cons {A : Type} (l : List (String × A)) (p : String × A)
    (upd : List (String × A)) :
    asetAll l (p :: upd) = asetAll (aset l p.1 p.2) upd := rfl

theorem alookup_asetAll {A : Type} (upd : List (String × A)) (l : List (String × A))
    (d : String) (hnd : (upd.map Prod.fst).Nodup) :
    alookup (asetAll l upd) d =
      match alookup upd d with
      | some x => some x
      | none => alookup l d := by
  induction upd generalizing l with
  | nil => simp [asetAll, alookup_nil]
  | cons p rest ih =>
      rw [List.map_cons, List.nodup_cons] at hnd
      rw [asetAll_cons, ih _ hnd.2]
      by_cases hd : d = p.1
      · have hrest : alookup rest d = none :=
          (alookup_eq_none_iff rest d).mpr (hd ▸ hnd.1)
        rw [alookup_cons, if_pos hd.symm, hrest, alookup_aset, if_pos hd]
      · rw [alookup_cons, if_neg (fun hh => hd hh.symm), alookup_aset, if_neg hd]

theorem aset_self {A : Type} {l : List (String × A)} {c : String} {x : A}
    (h : alookup l c = some x) : aset l c x = l := by
  induction l with
  | nil => simp [alookup_nil] at h
  | cons p rest ih =>
      obtain ⟨a, b⟩ := p
      simp only [aset]
      by_cases hp : a = c
      · rw [alookup_cons, if_pos hp] at h
        injection h with hx
        rw [if_pos hp, ← hp, ← hx]
      · rw [alookup_cons, if_neg hp] at h
        rw [if_neg hp, ih h]

theorem asetAll_self {A : Type} {l upd : List (String × A)}
    (h : ∀ p ∈ upd, alookup l p.1 = some p.2) : asetAll l upd = l := by
  induction upd with
  | nil => rfl
  | cons p rest ih =>
      rw [asetAll_cons, aset_self (h p (List.mem_cons_self p rest))]
      exact ih (fun q hq => h q (List.mem_cons_of_mem p hq))

theorem alookup_filterMapKeys {A : Type} (ks : List String)
    (f : String → Option A) (c : String) :
    alookup (ks.filterMap (fun k => (f k).map (fun x => (k, x)))) c =
      if c ∈ ks then f c else none := by
  induction ks with
  | nil => simp [alookup_nil]
  | cons k ks ih =>
      rw [List.filterMap_cons]
      by_cases hk : c = k
      · subst hk
        cases hfc : f c with
        | none =>
            simp only [hfc, Option.map_none']
            rw [ih]
            by_cases hm : c ∈ ks
            · rw [if_pos hm, if_pos (List.mem_cons_self c ks), hfc]
            · rw [if_neg hm, if_pos (List.mem_cons_self c ks)]
        | some x =>
            simp only [hfc, Option.map_some']
            rw [alookup_cons, if_pos rfl, if_pos (List.mem_cons_self c ks)]
      · have hnotc : ¬c ∈ [k] := by
          intro hh
          exact hk (List.mem_singleton.mp hh)
        cases hfk : f k with
        | none =>
            simp only [hfk, Option.map_none']
            rw [ih]
            by_cases hm : c ∈ ks
            · rw [if_pos hm, if_pos (List.mem_cons_of_mem k hm)]
            · rw [if_neg hm, if_neg (fun hmem => by
                rcases List.mem_cons.mp hmem with h1 | h1
                · exact hk h1
                · exact hm h1)]
        | some x =>
            simp only [hfk, Option.map_some']
            rw [alookup_cons, if_neg (show ¬(k, x).1 = c from fun hh => hk hh.symm), ih]
            by_cases hm : c ∈ ks
            · rw [if_pos hm, if_pos (List.mem_cons_of_mem k hm)]
            · rw [if_neg hm, if_neg (fun hmem => by
                rcases List.mem_cons.mp hmem with h1 | h1
                · exact hk h1
                · exact hm h1)]

theorem keys_filterMapKeys {A : Type} (ks : List String) (f : String → Option A) :
    (ks.filterMap (fun k => (f k).map (fun x => (k, x)))).map Prod.fst =
      ks.filter (fun k => (f k).isSome) := by
  induction ks with
  | nil => rfl
  | cons k ks ih =>
      rw [List.filterMap_cons]
      cases hfk : f k with
      | none => simp [hfk, ih]
      | some x => simp [hfk, ih]

theorem lookupChange_mergeChangesLWW (lc rc : Changes) (c : String) :
    lookupChange (mergeChangesLWW lc rc) c = lwwPick lc rc c := by
  rw [mergeChangesLWW, lookupChange, alookup_filterMapKeys]
  by_cases h : c ∈ (lc.map (fun p => p.1) ++ rc.map (fun p => p.1)).dedup
  · rw [if_pos h]
  · rw [if_neg h]
    rw [List.mem_dedup, List.mem_append] at h
    push_neg at h
    have hl : alookup lc c = none := (alookup_eq_none_iff lc c).mpr h.1
    have hr : alookup rc c = none := (alookup_eq_none_iff rc c).mpr h.2
    rw [lwwPick, lookupChange, lookupChange, hl, hr]

theorem keysNodup_mergeChangesLWW (lc rc : Changes) :
    ((mergeChangesLWW lc rc).map Prod.fst).Nodup := by
  rw [mergeChangesLWW, keys_filterMapKeys]
  exact (List.nodup_dedup _).filter _

theorem lookupChange_rowToChanges (r : Row) (ts : Nat) (c : String) :
    lookupChange (rowToChanges r ts) c =
      (rowLookup r c).map (fun v => (v, ts)) := by
  induction r with
  | nil => rfl
  | cons p rest ih =>
      by_cases h : p.1 = c
      · simp [rowToChanges, lookupChange, rowLookup, alookup_cons, h] at *
      · simp [rowToChanges, lookupChange, rowLookup, alookup_cons, h] at *
        exact ih

theorem rowLookup_changesToRow (cs : Changes) (c : String) :
    rowLookup (changesToRow cs) c = (lookupChange cs c).map Prod.fst := by
  induction cs with
  | nil => rfl
  | cons p rest ih =>
      by_cases h : p.1 = c
      · simp [changesToRow, lookupChange, rowLookup, alookup_cons, h] at *
      · simp [changesToRow, lookupChange, rowLookup, alookup_cons, h] at *
        exact ih

theorem entriesFor_eq (entries : List OplogEntry) (t : String) (pk : Row)
    (h : ∀ e ∈ entries, e.tablename = t ∧ e.primaryKey = pk) :
    entriesFor entries t pk = entries := by
  rw [entriesFor]
  exact List.filter_eq_self.mpr (fun e he => decide_eq_true (h e he))

theorem keys_rowToChanges (r : Row) (ts : Nat) :
    (rowToChanges r ts).map Prod.fst = r.map Prod.fst := by
  induction r with
  | nil => rfl
  | cons p rest ih => simp [rowToChanges] at *

theorem lookupChange_setChangesNil (upd : Changes)
    (hnd : (upd.map Prod.fst).Nodup) (c : String) :
    lookupChange (setChanges [] upd) c = lookupChange upd c := by
  rw [lookupChange, setChanges, alookup_asetAll upd [] c hnd]
  cases h : alookup upd c with
  | none =>
      rw [lookupChange, h]
      rfl
  | some x => rw [lookupChange, h]

/-- C1: merging one local insert with one incoming insert on the same primary
key resolves every column to the value with the greater timestamp, the
incoming value winning an exact tie: when the local timestamp is greater every
locally written column survives, when the incoming timestamp is greater the
incoming columns win while columns only the local side supplied are kept, and
the resolved tag set is the union of the local tag and the incoming tags. -/
theorem mergeEntries_lww_per_column (clientId incomingOrigin : String)
    (rels : RelationsCache) (eL eR : OplogEntry) (rL rR : Row)
    (hLop : eL.optype = OpType.insert) (hLrow : eL.newRow = some rL)
    (hRop : eR.optype = OpType.insert) (hRrow : eR.newRow = some rR)
    (htbl : eR.tablename = eL.tablename) (hpk : eR.primaryKey = eL.primaryKey)
    (hnodup : (rL.map Prod.fst).Nodup)
    (htag : generateTag clientId eL.timestamp ∉ eR.clearTags) :
    ∃ pc, mergeEntriesAt clientId [eL] incomingOrigin [eR] rels
        eL.tablename eL.primaryKey = some pc ∧
      pc.optype = OpType.upsert ∧
      pc.tags = generateTag clientId eL.timestamp :: eR.clearTags ∧
      ∀ c, lookupChange pc.changes c =
        match rowLookup rL c, rowLookup rR c with
        | some v, some w =>
            some (if eL.timestamp > eR.timestamp then (v, eL.timestamp)
                  else (w, eR.timestamp))
        | some v, none => some (v, eL.timestamp)
        | none, some w => some (w, eR.timestamp)
        | none, none => none := by
  have hfor : entriesFor [eR] eL.tablename eL.primaryKey = [eR] := by
    apply entriesFor_eq
    intro e he
    rw [List.mem_singleton] at he
    subst he
    exact ⟨htbl, hpk⟩
  have hforL : entriesFor [eL] eL.tablename eL.primaryKey = [eL] := by
    apply entriesFor_eq
    intro e he
    rw [List.mem_singleton] at he
    subst he
    exact ⟨rfl, rfl⟩
  have hRagg : remoteEntryToChanges eR =
      { optype := OpType.upsert, changes := rowToChanges rR eR.timestamp,
        fullRow := rR, tags := eR.clearTags, lastTs := eR.timestamp } := by
    simp [remoteEntryToChanges, hRop, changedColumns, hRrow]
  have hLagg : localChangesFor clientId rels [eL] eL.tablename eL.primaryKey =
      { tablename := eL.tablename, primaryKeyCols := eL.primaryKey,
        optype := OpType.upsert,
        changes := setChanges [] (rowToChanges rL eL.timestamp),
        tag := some (generateTag clientId eL.timestamp) } := by
    simp [localChangesFor, hforL, foldLocalEntry, hLop, emptyLocalChanges,
      changedColumns, hLrow]
  have hmerge : mergeEntriesAt clientId [eL] incomingOrigin [eR] rels
      eL.tablename eL.primaryKey =
      some (mergeLocalRemote eL.tablename eL.primaryKey
        (localChangesFor clientId rels [eL] eL.tablename eL.primaryKey)
        (remoteEntryToChanges eR)) := by
    rw [mergeEntriesAt, hfor]
    rfl
  refine ⟨_, hmerge, ?_, ?_, ?_⟩
  · rw [mergeLocalRemote, hLagg, hRagg]
    simp [List.isEmpty]
  · rw [mergeLocalRemote, hLagg, hRagg]
    simp only [Option.toList_some]
    have : eR.clearTags.filter
        (fun t => decide (t ∉ [generateTag clientId eL.timestamp])) = eR.clearTags := by
      apply List.filter_eq_self.mpr
      intro t ht
      apply decide_eq_true
      intro hmem
      rw [List.mem_singleton] at hmem
      exact htag (hmem ▸ ht)
    rw [this]
    rfl
  · intro c
    rw [mergeLocalRemote, hLagg, hRagg]
    simp only
    rw [lookupChange_mergeChangesLWW]
    have hlc : lookupChange (setChanges [] (rowToChanges rL eL.timestamp)) c =
        (rowLookup rL c).map (fun v => (v, eL.timestamp)) := by
      rw [lookupChange_setChangesNil _ (by rw [keys_rowToChanges]; exact hnodup),
        lookupChange_rowToChanges]
    have hrc : lookupChange (rowToChanges rR eR.timestamp) c =
        (rowLookup rR c).map (fun v => (v, eR.timestamp)) :=
      lookupChange_rowToChanges rR eR.timestamp c
    rw [lwwPick, hlc, hrc]
    cases rowLookup rL c <;> cases rowLookup rR c <;> simp

theorem alookup_append {A : Type} (l r : List (String × A)) (c : String) :
    alookup (l ++ r) c =
      match alookup l c with
      | some x => some x
      | none => alookup r c := by
  induction l with
  | nil => rw [List.nil_append]; rfl
  | cons p rest ih =>
      rw [List.cons_append, alookup_cons, alookup_cons]
      by_cases h : p.1 = c
      · rw [if_pos h, if_pos h]
      · rw [if_neg h, if_neg h, ih]

theorem keys_changesToRow (cs : Changes) :
    (changesToRow cs).map Prod.fst = cs.map Prod.fst := by
  induction cs with
  | nil => rfl
  | cons p rest ih => simp [changesToRow] at *

/-- C2: a local INSERT at an earlier timestamp merged with a remote INSERT and
a remote DELETE that share one later timestamp yields an UPSERT, not a delete:
the resolved row takes the remote value for every column the remote insert
specified and the local value for every column it did not, and the tag set is
the union of the local tag and the remote insert tags. -/
theorem mergeEntries_insert_wins_over_delete (clientId incomingOrigin : String)
    (rels : RelationsCache) (eL eIns eDel : OplogEntry) (rL rI : Row)
    (hLop : eL.optype = OpType.insert) (hLrow : eL.newRow = some rL)
    (hIop : eIns.optype = OpType.insert) (hIrow : eIns.newRow = some rI)
    (hDop : eDel.optype = OpType.delete)
    (hItbl : eIns.tablename = eL.tablename) (hIpk : eIns.primaryKey = eL.primaryKey)
    (hDtbl : eDel.tablename = eL.tablename) (hDpk : eDel.primaryKey = eL.primaryKey)
    (hts : eDel.timestamp = eIns.timestamp)
    (hlt : eL.timestamp < eIns.timestamp)
    (hnodL : (rL.map Prod.fst).Nodup)
    (htag : generateTag clientId eL.timestamp ∉ eIns.clearTags) :
    ∃ pc, mergeEntriesAt clientId [eL] incomingOrigin [eIns, eDel] rels
        eL.tablename eL.primaryKey = some pc ∧
      pc.optype = OpType.upsert ∧
      pc.tags = generateTag clientId eL.timestamp :: eIns.clearTags ∧
      ∀ c, rowLookup pc.fullRow c =
        match rowLookup rI c with
        | some w => some w
        | none => rowLookup rL c := by
  have hfor : entriesFor [eIns, eDel] eL.tablename eL.primaryKey = [eIns, eDel] := by
    apply entriesFor_eq
    intro e he
    rcases List.mem_cons.mp he with h | h
    · subst h
      exact ⟨hItbl, hIpk⟩
    · rw [List.mem_singleton] at h
      subst h
      exact ⟨hDtbl, hDpk⟩
  have hforL : entriesFor [eL] eL.tablename eL.primaryKey = [eL] := by
    apply entriesFor_eq
    intro e he
    rw [List.mem_singleton] at he
    subst he
    exact ⟨rfl, rfl⟩
  have hRagg : (entriesFor [eIns, eDel] eL.tablename eL.primaryKey).foldl
      foldRemoteEntry none =
      some { optype := OpType.upsert, changes := rowToChanges rI eIns.timestamp,
             fullRow := rI, tags := eIns.clearTags, lastTs := eIns.timestamp } := by
    rw [hfor, List.foldl_cons, List.foldl_cons, List.foldl_nil]
    have hstep1 : foldRemoteEntry none eIns =
        some { optype := OpType.upsert, changes := rowToChanges rI eIns.timestamp,
               fullRow := rI, tags := eIns.clearTags, lastTs := eIns.timestamp } := by
      simp [foldRemoteEntry, remoteEntryToChanges, hIop, changedColumns, hIrow]
    rw [hstep1]
    simp [foldRemoteEntry, hDop, hts]
  have hLagg : localChangesFor clientId rels [eL] eL.tablename eL.primaryKey =
      { tablename := eL.tablename, primaryKeyCols := eL.primaryKey,
        optype := OpType.upsert,
        changes := setChanges [] (rowToChanges rL eL.timestamp),
        tag := some (generateTag clientId eL.timestamp) } := by
    simp [localChangesFor, hforL, foldLocalEntry, hLop, emptyLocalChanges,
      changedColumns, hLrow]
  have hmerge : mergeEntriesAt clientId [eL] incomingOrigin [eIns, eDel] rels
      eL.tablename eL.primaryKey =
      some (mergeLocalRemote eL.tablename eL.primaryKey
        (localChangesFor clientId rels [eL] eL.tablename eL.primaryKey)
        { optype := OpType.upsert, changes := rowToChanges rI eIns.timestamp,
          fullRow := rI, tags := eIns.clearTags, lastTs := eIns.timestamp }) := by
    rw [mergeEntriesAt, hRagg]
  refine ⟨_, hmerge, ?_, ?_, ?_⟩
  · rw [mergeLocalRemote, hLagg]
    simp [List.isEmpty]
  · rw [mergeLocalRemote, hLagg]
    simp only [Option.toList_some]
    have : eIns.clearTags.filter
        (fun t => decide (t ∉ [generateTag clientId eL.timestamp])) = eIns.clearTags := by
      apply List.filter_eq_self.mpr
      intro t ht
      apply decide_eq_true
      intro hmem
      rw [List.mem_singleton] at hmem
      exact htag (hmem ▸ ht)
    rw [this]
    rfl
  · intro c
    rw [mergeLocalRemote, hLagg]
    simp only
    have hndch : ((changesToRow (mergeChangesLWW
        (setChanges [] (rowToChanges rL eL.timestamp))
        (rowToChanges rI eIns.timestamp))).map Prod.fst).Nodup := by
      rw [keys_changesToRow]
      exact keysNodup_mergeChangesLWW _ _
    rw [rowLookup, patchRow, alookup_asetAll _ _ _ hndch]
    have hch : alookup (changesToRow (mergeChangesLWW
        (setChanges [] (rowToChanges rL eL.timestamp))
        (rowToChanges rI eIns.timestamp))) c =
        (lwwPick (setChanges [] (rowToChanges rL eL.timestamp))
          (rowToChanges rI eIns.timestamp) c).map Prod.fst := by
      rw [show alookup (changesToRow (mergeChangesLWW _ _)) c =
            rowLookup (changesToRow (mergeChangesLWW _ _)) c from rfl,
          rowLookup_changesToRow, lookupChange_mergeChangesLWW]
    rw [hch]
    have hlc : lookupChange (setChanges [] (rowToChanges rL eL.timestamp)) c =
        (rowLookup rL c).map (fun v => (v, eL.timestamp)) := by
      rw [lookupChange_setChangesNil _ (by rw [keys_rowToChanges]; exact hnodL),
        lookupChange_rowToChanges]
    have hrc : lookupChange (rowToChanges rI eIns.timestamp) c =
        (rowLookup rI c).map (fun v => (v, eIns.timestamp)) :=
      lookupChange_rowToChanges rI eIns.timestamp c
    rw [lwwPick, hlc, hrc]
    have hnotgt : ¬eL.timestamp > eIns.timestamp := not_lt_of_gt hlt
    cases hI : rowLookup rI c with
    | some w =>
        cases hL : rowLookup rL c with
        | some v => simp [hnotgt]
        | none => simp
    | none =>
        cases hL : rowLookup rL c with
        | some v => simp [rowLookup, hL]
        | none =>
            simp only [Option.map_none']
            exact hI

theorem alookup_constMap (cols : List ColumnInfo) (nm : String)
    (x : SqlValue × Nat) (h : ∃ c ∈ cols, c.name = nm) :
    alookup (cols.map (fun c => (c.name, x))) nm = some x := by
  induction cols with
  | nil => simp at h
  | cons c0 rest ih =>
      rw [List.map_cons, alookup_cons]
      by_cases hc : c0.name = nm
      · rw [if_pos hc]
      · rw [if_neg hc]
        apply ih
        rcases h with ⟨c, hmem, hname⟩
        rcases List.mem_cons.mp hmem with hh | hh
        · exact absurd (hh ▸ hname) hc
        · exact ⟨c, hh, hname⟩

/-- C4: within one pre-snapshot window, aggregating a local INSERT, DELETE,
INSERT sequence on the same primary key resolves every relation column the
final insert did not explicitly supply to an explicit null stamped with the
final insert timestamp, not to the value the row carried before the delete. -/
theorem insert_after_delete_nullifies (clientId : String) (rel : Relation)
    (e1 e2 e3 : OplogEntry) (r3 : Row) (col : ColumnInfo)
    (h1op : e1.optype = OpType.insert)
    (h2op : e2.optype = OpType.delete)
    (h3op : e3.optype = OpType.insert) (h3row : e3.newRow = some r3)
    (h2tbl : e2.tablename = e1.tablename) (h2pk : e2.primaryKey = e1.primaryKey)
    (h3tbl : e3.tablename = e1.tablename) (h3pk : e3.primaryKey = e1.primaryKey)
    (hreltbl : rel.table = e1.tablename)
    (hcol : col ∈ rel.columns)
    (hmiss : rowLookup r3 col.name = none)
    (hnod3 : (r3.map Prod.fst).Nodup)
    (hnodrel : (rel.columns.map ColumnInfo.name).Nodup) :
    lookupChange
      (localChangesFor clientId [rel] [e1, e2, e3] e1.tablename e1.primaryKey).changes
      col.name = some (SqlValue.null, e3.timestamp) := by
  have hforL : entriesFor [e1, e2, e3] e1.tablename e1.primaryKey = [e1, e2, e3] := by
    apply entriesFor_eq
    intro e he
    rcases List.mem_cons.mp he with h | h
    · subst h
      exact ⟨rfl, rfl⟩
    rcases List.mem_cons.mp h with h | h
    · subst h
      exact ⟨h2tbl, h2pk⟩
    · rw [List.mem_singleton] at h
      subst h
      exact ⟨h3tbl, h3pk⟩
  have hrel : lookupRelation [rel] e1.tablename = some rel := by
    simp [lookupRelation, hreltbl]
  rw [localChangesFor, hforL, hrel, List.foldl_cons, List.foldl_cons,
    List.foldl_cons, List.foldl_nil]
  set a1 := foldLocalEntry clientId (some rel)
    (emptyLocalChanges e1.tablename e1.primaryKey) e1 with ha1
  have h2fold : foldLocalEntry clientId (some rel) a1 e2 =
      { a1 with optype := OpType.delete, tag := none } := by
    simp [foldLocalEntry, h2op]
  rw [h2fold]
  have h3fold : (foldLocalEntry clientId (some rel)
      { a1 with optype := OpType.delete, tag := none } e3).changes =
      setChanges a1.changes
        (nullChangesFor (some rel) r3 e3.timestamp ++ rowToChanges r3 e3.timestamp) := by
    simp [foldLocalEntry, h3op, h3row, changedColumns]
  rw [h3fold]
  have hnulls : nullChangesFor (some rel) r3 e3.timestamp =
      (rel.columns.filter (fun c => (rowLookup r3 c.name).isNone)).map
        (fun c => (c.name, (SqlValue.null, e3.timestamp))) := rfl
  have hndupd : (((nullChangesFor (some rel) r3 e3.timestamp ++
      rowToChanges r3 e3.timestamp)).map Prod.fst).Nodup := by
    rw [List.map_append, hnulls, keys_rowToChanges, List.nodup_append]
    refine ⟨?_, hnod3, ?_⟩
    · have hmapmap : ((rel.columns.filter
          (fun c => (rowLookup r3 c.name).isNone)).map
            (fun c => (c.name, (SqlValue.null, e3.timestamp)))).map Prod.fst =
          (rel.columns.filter (fun c => (rowLookup r3 c.name).isNone)).map
            ColumnInfo.name := by
        rw [List.map_map]
        rfl
      rw [hmapmap]
      exact List.Nodup.sublist
        ((List.filter_sublist _).map ColumnInfo.name) hnodrel
    · intro k hk hk2
      have : ∃ c, c ∈ rel.columns.filter (fun c => (rowLookup r3 c.name).isNone) ∧
          c.name = k := by
        rcases List.mem_map.mp (by
          rw [List.map_map] at hk
          exact hk) with ⟨c, hc, hcval⟩
        exact ⟨c, hc, hcval⟩
      rcases this with ⟨c, hcmem, hcname⟩
      have hnone : (rowLookup r3 c.name).isNone := (List.mem_filter.mp hcmem).2
      rw [hcname] at hnone
      have : rowLookup r3 k = none := Option.isNone_iff_eq_none.mp hnone
      exact (alookup_eq_none_iff r3 k).mp this hk2
  rw [lookupChange, setChanges, alookup_asetAll _ _ _ hndupd]
  have hmemnull : alookup (nullChangesFor (some rel) r3 e3.timestamp ++
      rowToChanges r3 e3.timestamp) col.name =
      some (SqlValue.null, e3.timestamp) := by
    rw [alookup_append, hnulls]
    rw [alookup_constMap _ _ _ ⟨col, List.mem_filter.mpr
      ⟨hcol, by rw [hmiss]; rfl⟩, rfl⟩]
  rw [hmemnull]

/-- Witness for C1 at the concrete local-wins scenario of the test suite. -/
theorem mergeEntries_lww_per_column_witness :
    ∃ pc, mergeEntriesAt "client"
      [{ rowid := 1, tablename := "main.parent", optype := OpType.insert,
         primaryKey := [("id", SqlValue.int 1)],
         newRow := some [("id", SqlValue.int 1), ("value", SqlValue.text "local"),
           ("other", SqlValue.int 1)],
         oldRow := none, timestamp := 10, clearTags := [generateTag "client" 10] }]
      "remote"
      [{ rowid := 2, tablename := "main.parent", optype := OpType.insert,
         primaryKey := [("id", SqlValue.int 1)],
         newRow := some [("id", SqlValue.int 1), ("value", SqlValue.text "incoming")],
         oldRow := none, timestamp := 9, clearTags := [generateTag "remote" 9] }]
      [] "main.parent" [("id", SqlValue.int 1)] = some pc ∧
      pc.optype = OpType.upsert ∧
      pc.tags = [generateTag "client" 10, generateTag "remote" 9] ∧
      lookupChange pc.changes "value" = some (SqlValue.text "local", 10) ∧
      lookupChange pc.changes "other" = some (SqlValue.int 1, 10) := by
  obtain ⟨pc, h1, h2, h3, h4⟩ :=
    mergeEntries_lww_per_column "client" "remote" []
      { rowid := 1, tablename := "main.parent", optype := OpType.insert,
        primaryKey := [("id", SqlValue.int 1)],
        newRow := some [("id", SqlValue.int 1), ("value", SqlValue.text "local"),
          ("other", SqlValue.int 1)],
        oldRow := none, timestamp := 10, clearTags := [generateTag "client" 10] }
      { rowid := 2, tablename := "main.parent", optype := OpType.insert,
        primaryKey := [("id", SqlValue.int 1)],
        newRow := some [("id", SqlValue.int 1), ("value", SqlValue.text "incoming")],
        oldRow := none, timestamp := 9, clearTags := [generateTag "remote" 9] }
      [("id", SqlValue.int 1), ("value", SqlValue.text "local"),
        ("other", SqlValue.int 1)]
      [("id", SqlValue.int 1), ("value", SqlValue.text "incoming")]
      rfl rfl rfl rfl rfl rfl (by decide) (by decide)
  refine ⟨pc, h1, h2, h3, ?_, ?_⟩
  · rw [h4 "value"]
    decide
  · rw [h4 "other"]
    decide

/-- Witness for C2 at the concrete insert-wins-over-delete scenario of the
test suite. -/
theorem mergeEntries_insert_wins_over_delete_witness :
    ∃ pc, mergeEntriesAt "client"
      [{ rowid := 1, tablename := "main.parent", optype := OpType.insert,
         primaryKey := [("id", SqlValue.int 1)],
         newRow := some [("id", SqlValue.int 1), ("value", SqlValue.text "local"),
           ("other", SqlValue.null)],
         oldRow := none, timestamp := 10, clearTags := [generateTag "client" 10] }]
      "remote"
      [{ rowid := 2, tablename := "main.parent", optype := OpType.insert,
         primaryKey := [("id", SqlValue.int 1)],
         newRow := some [("id", SqlValue.int 1), ("other", SqlValue.int 1)],
         oldRow := none, timestamp := 11, clearTags := [generateTag "remote" 11] },
       { rowid := 3, tablename := "main.parent", optype := OpType.delete,
         primaryKey := [("id", SqlValue.int 1)],
         newRow := none, oldRow := some [("id", SqlValue.int 1)],
         timestamp := 11, clearTags := [] }]
      [] "main.parent" [("id", SqlValue.int 1)] = some pc ∧
      pc.optype = OpType.upsert ∧
      pc.tags = [generateTag "client" 10, generateTag "remote" 11] ∧
      rowLookup pc.fullRow "id" = some (SqlValue.int 1) ∧
      rowLookup pc.fullRow "value" = some (SqlValue.text "local") ∧
      rowLookup pc.fullRow "other" = some (SqlValue.int 1) := by
  obtain ⟨pc, h1, h2, h3, h4⟩ :=
    mergeEntries_insert_wins_over_delete "client" "remote" []
      { rowid := 1, tablename := "main.parent", optype := OpType.insert,
        primaryKey := [("id", SqlValue.int 1)],
        newRow := some [("id", SqlValue.int 1), ("value", SqlValue.text "local"),
          ("other", SqlValue.null)],
        oldRow := none, timestamp := 10, clearTags := [generateTag "client" 10] }
      { rowid := 2, tablename := "main.parent", optype := OpType.insert,
        primaryKey := [("id", SqlValue.int 1)],
        newRow := some [("id", SqlValue.int 1), ("other", SqlValue.int 1)],
        oldRow := none, timestamp := 11, clearTags := [generateTag "remote" 11] }
      { rowid := 3, tablename := "main.parent", optype := OpType.delete,
        primaryKey := [("id", SqlValue.int 1)],
        newRow := none, oldRow := some [("id", SqlValue.int 1)],
        timestamp := 11, clearTags := [] }
      [("id", SqlValue.int 1), ("value", SqlValue.text "local"),
        ("other", SqlValue.null)]
      [("id", SqlValue.int 1), ("other", SqlValue.int 1)]
      rfl rfl rfl rfl rfl rfl rfl rfl rfl rfl (by decide) (by decide) (by decide)
  refine ⟨pc, h1, h2, h3, ?_, ?_, ?_⟩
  · rw [h4 "id"]
    decide
  · rw [h4 "value"]
    decide
  · rw [h4 "other"]
    decide

/-- Witness for C4 at the concrete INSERT-after-DELETE scenario of the test
suite: the `value` column of the final bare insert resolves to null. -/
theorem insert_after_delete_nullifies_witness :
    lookupChange
      (localChangesFor "client"
        [{ table := "main.parent", pkCols := ["id"],
           columns := [{ name := "id", dflt := none },
             { name := "value", dflt := none },
             { name := "other", dflt := some (SqlValue.int 0) }],
           fks := [] }]
        [{ rowid := 1, tablename := "main.parent", optype := OpType.insert,
           primaryKey := [("id", SqlValue.int 1)],
           newRow := some [("id", SqlValue.int 1), ("value", SqlValue.text "val1")],
           oldRow := none, timestamp := 1, clearTags := [] },
         { rowid := 2, tablename := "main.parent", optype := OpType.delete,
           primaryKey := [("id", SqlValue.int 1)],
           newRow := none, oldRow := some [("id", SqlValue.int 1)],
           timestamp := 2, clearTags := [] },
         { rowid := 3, tablename := "main.parent", optype := OpType.insert,
           primaryKey := [("id", SqlValue.int 1)],
           newRow := some [("id", SqlValue.int 1)],
           oldRow := none, timestamp := 3, clearTags := [] }]
        "main.parent" [("id", SqlValue.int 1)]).changes
      "value" = some (SqlValue.null, 3) :=
  insert_after_delete_nullifies "client"
    { table := "main.parent", pkCols := ["id"],
      columns := [{ name := "id", dflt := none },
        { name := "value", dflt := none },
        { name := "other", dflt := some (SqlValue.int 0) }],
      fks := [] }
    { rowid := 1, tablename := "main.parent", optype := OpType.insert,
      primaryKey := [("id", SqlValue.int 1)],
      newRow := some [("id", SqlValue.int 1), ("value", SqlValue.text "val1")],
      oldRow := none, timestamp := 1, clearTags := [] }
    { rowid := 2, tablename := "main.parent", optype := OpType.delete,
      primaryKey := [("id", SqlValue.int 1)],
      newRow := none, oldRow := some [("id", SqlValue.int 1)],
      timestamp := 2, clearTags := [] }
    { rowid := 3, tablename := "main.parent", optype := OpType.insert,
      primaryKey := [("id", SqlValue.int 1)],
      newRow := some [("id", SqlValue.int 1)],
      oldRow := none, timestamp := 3, clearTags := [] }
    [("id", SqlValue.int 1)]
    { name := "value", dflt := none }
    rfl rfl rfl rfl rfl rfl rfl rfl rfl (by decide) (by decide) (by decide) (by decide)

theorem getAssoc2_cons {A : Type} (e : String × Row × A) (l : List (String × Row × A))
    (t : String) (pk : Row) :
    getAssoc2 (e :: l) t pk =
      if e.1 = t ∧ e.2.1 = pk then some e.2.2 else getAssoc2 l t pk := by
  by_cases h : e.1 = t ∧ e.2.1 = pk
  · simp [getAssoc2, List.find?_cons_of_pos, h]
  · simp [getAssoc2, List.find?_cons_of_neg, h]

theorem putAssoc2_self {A : Type} {l : List (String × Row × A)} {t : String}
    {pk : Row} {a : A} (h : getAssoc2 l t pk = some a) :
    putAssoc2 l t pk a = l := by
  induction l with
  | nil => simp [getAssoc2] at h
  | cons e rest ih =>
      obtain ⟨t0, pk0, a0⟩ := e
      rw [getAssoc2_cons] at h
      by_cases he : t0 = t ∧ pk0 = pk
      · rw [if_pos he] at h
        injection h with ha
        rw [putAssoc2, if_pos he, ← he.1, ← he.2, ← ha]
      · rw [if_neg he] at h
        rw [putAssoc2, if_neg he, ih h]

theorem mem_mergeChangesLWW {lc rc : Changes} {q : String × SqlValue × Nat}
    (h : q ∈ mergeChangesLWW lc rc) : lwwPick lc rc q.1 = some q.2 := by
  rw [mergeChangesLWW] at h
  rcases List.mem_filterMap.mp h with ⟨k, _, heq⟩
  cases hp : lwwPick lc rc k with
  | none => rw [hp] at heq; exact Option.noConfusion heq
  | some vt =>
      rw [hp] at heq
      injection heq with hq
      rw [← hq]
      exact hp

theorem mem_changedColumns {e : OplogEntry} {rr : Row} (hrow : e.newRow = some rr)
    {c : String} {v : SqlValue} {t : Nat}
    (h : (c, (v, t)) ∈ changedColumns e) : (c, v) ∈ rr := by
  cases hopt : e.optype with
  | update =>
      simp only [changedColumns, hopt, hrow, Option.getD_some] at h
      rcases List.mem_filterMap.mp h with ⟨p, hp, heq⟩
      by_cases hsk : rowLookup (e.oldRow.getD []) p.1 = some p.2
      · rw [if_pos hsk] at heq
        exact Option.noConfusion heq
      · rw [if_neg hsk] at heq
        injection heq with hq
        have h1 : p.1 = c := congrArg Prod.fst hq
        have h2 : p.2 = v := congrArg (fun x => x.2.1) hq
        rw [← h1, ← h2]
        exact hp
  | insert =>
      simp only [changedColumns, hopt, hrow, Option.getD_some, rowToChanges] at h
      rcases List.mem_map.mp h with ⟨p, hp, heq⟩
      have h1 : p.1 = c := congrArg Prod.fst heq
      have h2 : p.2 = v := congrArg (fun x => x.2.1) heq
      rw [← h1, ← h2]
      exact hp
  | delete =>
      simp only [changedColumns, hopt, hrow, Option.getD_some, rowToChanges] at h
      rcases List.mem_map.mp h with ⟨p, hp, heq⟩
      have h1 : p.1 = c := congrArg Prod.fst heq
      have h2 : p.2 = v := congrArg (fun x => x.2.1) heq
      rw [← h1, ← h2]
      exact hp
  | upsert =>
      simp only [changedColumns, hopt, hrow, Option.getD_some, rowToChanges] at h
      rcases List.mem_map.mp h with ⟨p, hp, heq⟩
      have h1 : p.1 = c := congrArg Prod.fst heq
      have h2 : p.2 = v := congrArg (fun x => x.2.1) heq
      rw [← h1, ← h2]
      exact hp
  | gone =>
      simp only [changedColumns, hopt, hrow, Option.getD_some, rowToChanges] at h
      rcases List.mem_map.mp h with ⟨p, hp, heq⟩
      have h1 : p.1 = c := congrArg Prod.fst heq
      have h2 : p.2 = v := congrArg (fun x => x.2.1) heq
      rw [← h1, ← h2]
      exact hp

theorem applyResolvedAt_preserves (clientId : String) (rels : RelationsCache)
    (les : List OplogEntry) (origin : String) (chs : List OplogEntry)
    (s : SatState) (tp : String × Row) (h : s.triggersEnabled = false) :
    (applyResolvedAt clientId rels les origin chs s tp).oplog = s.oplog ∧
    (applyResolvedAt clientId rels les origin chs s tp).raw = s.raw ∧
    (applyResolvedAt clientId rels les origin chs s tp).nextRowid = s.nextRowid ∧
    (applyResolvedAt clientId rels les origin chs s tp).triggersEnabled = false := by
  rw [applyResolvedAt]
  cases hm : mergeEntriesAt clientId les origin chs rels tp.1 tp.2 with
  | none => exact ⟨rfl, rfl, rfl, h⟩
  | some pc =>
      dsimp only
      by_cases hd : pc.optype = OpType.delete
      · rw [if_pos hd]
        simp [dbDeleteRow, h]
      · rw [if_neg hd]
        simp [dbWriteRow, h]

theorem foldApply_state (clientId : String) (rels : RelationsCache)
    (les : List OplogEntry) (origin : String) (chs : List OplogEntry)
    (keys : List (String × Row)) (s : SatState) (h : s.triggersEnabled = false) :
    (keys.foldl (applyResolvedAt clientId rels les origin chs) s).oplog = s.oplog ∧
    (keys.foldl (applyResolvedAt clientId rels les origin chs) s).raw = s.raw ∧
    (keys.foldl (applyResolvedAt clientId rels les origin chs) s).nextRowid
      = s.nextRowid ∧
    (keys.foldl (applyResolvedAt clientId rels les origin chs) s).triggersEnabled
      = false := by
  induction keys generalizing s with
  | nil => exact ⟨rfl, rfl, rfl, h⟩
  | cons k ks ih =>
      rw [List.foldl_cons]
      obtain ⟨h1, h2, h3, h4⟩ :=
        applyResolvedAt_preserves clientId rels les origin chs s k h
      obtain ⟨g1, g2, g3, g4⟩ :=
        ih (applyResolvedAt clientId rels les origin chs s k) h4
      exact ⟨g1.trans h1, g2.trans h2, g3.trans h3, g4⟩

/-- C6: applying an incoming transaction adds no entry to the local oplog: the
raw trigger output is exactly what local writes alone produced (any entry a
defensively firing trigger appended during the apply is deleted before
commit), and the stamped oplog is at most garbage-collected, never extended. -/
theorem applyTransaction_adds_nothing_to_oplog (clientId : String)
    (rels : RelationsCache) (st : SatState) (tx : Transaction)
    (hraw : ∀ r ∈ st.raw, r.rowid < st.nextRowid) :
    (_applyTransaction clientId rels st tx).raw = st.raw ∧
    (_applyTransaction clientId rels st tx).oplog =
      (if tx.origin = clientId then
        st.oplog.filter (fun x => decide (tx.commit_timestamp < x.timestamp))
      else st.oplog) := by
  have hfilter : st.raw.filter (fun r => decide (r.rowid < st.nextRowid)) = st.raw :=
    List.filter_eq_self.mpr (fun r hr => decide_eq_true (hraw r hr))
  by_cases horg : tx.origin = clientId
  · obtain ⟨ho, hr, _, _⟩ := foldApply_state clientId rels
      (st.oplog.filter (fun x => decide (tx.commit_timestamp < x.timestamp)))
      tx.origin tx.changes (txKeys tx.changes)
      { st with triggersEnabled := false } rfl
    simp only [_applyTransaction, horg, if_true, eq_self_iff_true] at *
    constructor
    · simp only [hr]
      exact hfilter
    · simp only [ho]
  · obtain ⟨ho, hr, _, _⟩ := foldApply_state clientId rels st.oplog
      tx.origin tx.changes (txKeys tx.changes)
      { st with triggersEnabled := false } rfl
    simp only [_applyTransaction, horg, if_false] at *
    constructor
    · simp only [hr]
      exact hfilter
    · simp only [ho]

/-- Witness for C6: a remote transaction applied over a state holding one raw
capture and one stamped oplog entry leaves both untouched. -/
theorem applyTransaction_adds_nothing_to_oplog_witness :
    (_applyTransaction "client" []
      { rows := [], shadow := [],
        raw := [{ rowid := 0, tablename := "main.parent", optype := OpType.insert,
                  primaryKey := [("id", SqlValue.int 1)],
                  newRow := some [("id", SqlValue.int 1)], oldRow := none }],
        oplog := [{ rowid := 0, tablename := "main.parent", optype := OpType.insert,
                    primaryKey := [("id", SqlValue.int 1)],
                    newRow := some [("id", SqlValue.int 1)], oldRow := none,
                    timestamp := 3, clearTags := [generateTag "client" 3] }],
        lsn := 0, triggersEnabled := true, nextRowid := 1 }
      { origin := "remote", commit_timestamp := 5, changes := [], lsn := 1 }).raw =
      [{ rowid := 0, tablename := "main.parent", optype := OpType.insert,
         primaryKey := [("id", SqlValue.int 1)],
         newRow := some [("id", SqlValue.int 1)], oldRow := none }] ∧
    (_applyTransaction "client" []
      { rows := [], shadow := [],
        raw := [{ rowid := 0, tablename := "main.parent", optype := OpType.insert,
                  primaryKey := [("id", SqlValue.int 1)],
                  newRow := some [("id", SqlValue.int 1)], oldRow := none }],
        oplog := [{ rowid := 0, tablename := "main.parent", optype := OpType.insert,
                    primaryKey := [("id", SqlValue.int 1)],
                    newRow := some [("id", SqlValue.int 1)], oldRow := none,
                    timestamp := 3, clearTags := [generateTag "client" 3] }],
        lsn := 0, triggersEnabled := true, nextRowid := 1 }
      { origin := "remote", commit_timestamp := 5, changes := [], lsn := 1 }).oplog =
      [{ rowid := 0, tablename := "main.parent", optype := OpType.insert,
         primaryKey := [("id", SqlValue.int 1)],
         newRow := some [("id", SqlValue.int 1)], oldRow := none,
         timestamp := 3, clearTags := [generateTag "client" 3] }] :=
  applyTransaction_adds_nothing_to_oplog "client" []
    { rows := [], shadow := [],
      raw := [{ rowid := 0, tablename := "main.parent", optype := OpType.insert,
                primaryKey := [("id", SqlValue.int 1)],
                newRow := some [("id", SqlValue.int 1)], oldRow := none }],
      oplog := [{ rowid := 0, tablename := "main.parent", optype := OpType.insert,
                  primaryKey := [("id", SqlValue.int 1)],
                  newRow := some [("id", SqlValue.int 1)], oldRow := none,
                  timestamp := 3, clearTags := [generateTag "client" 3] }],
      lsn := 0, triggersEnabled := true, nextRowid := 1 }
    { origin := "remote", commit_timestamp := 5, changes := [], lsn := 1 }
    (by decide)

/-- C3: applying an incoming transaction whose origin is this client, whose
tags are already present in the shadow, and whose change carries the resolved
row values the client already holds (the server round-trip echo), leaves every
user-table row unchanged and deletes from the local oplog every entry the
transaction acknowledges, so `_getEntries` afterwards returns no acknowledged
entries. -/
theorem applyTransaction_roundtrip_noop (clientId : String)
    (rels : RelationsCache) (st : SatState) (tx : Transaction) (e : OplogEntry)
    (rr : Row)
    (horigin : tx.origin = clientId)
    (hch : tx.changes = [e])
    (hop : e.optype ≠ OpType.delete)
    (hrow : e.newRow = some rr)
    (hnod : (rr.map Prod.fst).Nodup)
    (htags : e.clearTags ≠ [])
    (hshadow : ∀ t ∈ e.clearTags, t ∈ shadowTags st e.tablename e.primaryKey)
    (hecho : getAssoc2 st.rows e.tablename e.primaryKey = some rr)
    (hacked : ∀ x ∈ st.oplog, x.timestamp ≤ tx.commit_timestamp) :
    (_applyTransaction clientId rels st tx).rows = st.rows ∧
    _getEntries (_applyTransaction clientId rels st tx) = [] := by
  have hle : st.oplog.filter
      (fun x => decide (tx.commit_timestamp < x.timestamp)) = [] := by
    apply List.filter_eq_nil_iff.mpr
    intro x hx
    simp only [decide_eq_true_eq, not_lt]
    exact hacked x hx
  have hR : remoteEntryToChanges e =
      { optype := OpType.upsert, changes := changedColumns e, fullRow := rr,
        tags := e.clearTags, lastTs := e.timestamp } := by
    cases hopt : e.optype with
    | delete => exact absurd hopt hop
    | insert => simp [remoteEntryToChanges, hopt, hrow]
    | update => simp [remoteEntryToChanges, hopt, hrow]
    | upsert => simp [remoteEntryToChanges, hopt, hrow]
    | gone => simp [remoteEntryToChanges, hopt, hrow]
  have hfor : entriesFor [e] e.tablename e.primaryKey = [e] := by
    apply entriesFor_eq
    intro x hx
    rw [List.mem_singleton] at hx
    subst hx
    exact ⟨rfl, rfl⟩
  have hmergeAt : mergeEntriesAt clientId [] clientId [e] rels
      e.tablename e.primaryKey =
      some (mergeLocalRemote e.tablename e.primaryKey
        (emptyLocalChanges e.tablename e.primaryKey) (remoteEntryToChanges e)) := by
    rw [mergeEntriesAt, hfor]
    rfl
  have hfiltertags : e.clearTags.filter
      (fun t => decide (t ∉ ([] : List Tag))) = e.clearTags :=
    List.filter_eq_self.mpr (fun a _ => by simp)
  have htagspc : (mergeLocalRemote e.tablename e.primaryKey
      (emptyLocalChanges e.tablename e.primaryKey)
      (remoteEntryToChanges e)).tags = e.clearTags := by
    simp only [mergeLocalRemote, hR, emptyLocalChanges, Option.toList_none,
      List.nil_append]
    exact hfiltertags
  have hopty : (mergeLocalRemote e.tablename e.primaryKey
      (emptyLocalChanges e.tablename e.primaryKey)
      (remoteEntryToChanges e)).optype = OpType.upsert := by
    simp only [mergeLocalRemote, hR, emptyLocalChanges, Option.toList_none,
      List.nil_append, hfiltertags]
    cases hct : e.clearTags with
    | nil => exact absurd hct htags
    | cons a l => rfl
  have hfull : (mergeLocalRemote e.tablename e.primaryKey
      (emptyLocalChanges e.tablename e.primaryKey)
      (remoteEntryToChanges e)).fullRow = rr := by
    simp only [mergeLocalRemote, hR, emptyLocalChanges]
    rw [patchRow]
    apply asetAll_self
    intro p hp
    rcases List.mem_map.mp hp with ⟨q, hq, hpq⟩
    have hlww := mem_mergeChangesLWW hq
    have hrc : lookupChange (changedColumns e) q.1 = some q.2 := hlww
    have hmem : (q.1, q.2) ∈ changedColumns e := mem_of_alookup_eq_some hrc
    have hinr : (q.1, q.2.1) ∈ rr := mem_changedColumns hrow hmem
    rw [← hpq]
    exact alookup_of_mem_nodup hnod hinr
  have happrows : (applyResolvedAt clientId rels [] clientId [e]
      { st with triggersEnabled := false } (e.tablename, e.primaryKey)).rows
      = st.rows := by
    rw [applyResolvedAt]
    dsimp only
    rw [hmergeAt]
    dsimp only
    rw [if_neg (fun hh => by rw [hopty] at hh; exact OpType.noConfusion hh)]
    simp only [dbWriteRow]
    simp only [hfull]
    exact putAssoc2_self hecho
  obtain ⟨ho, _, _, _⟩ := foldApply_state clientId rels [] clientId [e]
    (txKeys [e]) { st with triggersEnabled := false } rfl
  constructor
  · simp only [_applyTransaction, horigin, hch, hle, eq_self_iff_true, if_true]
    rw [show txKeys [e] = [(e.tablename, e.primaryKey)] from rfl,
      List.foldl_cons, List.foldl_nil]
    exact happrows
  · simp only [_getEntries, _applyTransaction, horigin, hch, hle,
      eq_self_iff_true, if_true]
    rw [ho]
    exact hle


/-- Witness for C3 at the concrete round-trip scenario of the test suite: the
server echoes the resolved update back to its author and the apply leaves the
row as it was while emptying the oplog. -/
theorem applyTransaction_roundtrip_noop_witness :
    (_applyTransaction "client" []
      { rows := [("main.parent", [("id", SqlValue.int 1)], [("id", SqlValue.int 1), ("value", SqlValue.text "incoming")])], shadow := [("main.parent", [("id", SqlValue.int 1)], [generateTag "remote" 11, generateTag "client" 10])], raw := [], oplog := [{ rowid := 1, tablename := "main.parent", optype := OpType.update, primaryKey := [("id", SqlValue.int 1)], newRow := some [("id", SqlValue.int 1), ("value", SqlValue.text "new local")], oldRow := some [("id", SqlValue.int 1), ("value", SqlValue.text "local")], timestamp := 10, clearTags := [generateTag "client" 10] }], lsn := 0, triggersEnabled := true, nextRowid := 2 }
      { origin := "client", commit_timestamp := 10, changes := [{ rowid := 5, tablename := "main.parent", optype := OpType.update, primaryKey := [("id", SqlValue.int 1)], newRow := some [("id", SqlValue.int 1), ("value", SqlValue.text "incoming")], oldRow := some [("id", SqlValue.int 1), ("value", SqlValue.text "incoming")], timestamp := 10, clearTags := [generateTag "remote" 11, generateTag "client" 10] }], lsn := 2 }).rows =
      [("main.parent", [("id", SqlValue.int 1)], [("id", SqlValue.int 1), ("value", SqlValue.text "incoming")])] ∧
    _getEntries (_applyTransaction "client" []
      { rows := [("main.parent", [("id", SqlValue.int 1)], [("id", SqlValue.int 1), ("value", SqlValue.text "incoming")])], shadow := [("main.parent", [("id", SqlValue.int 1)], [generateTag "remote" 11, generateTag "client" 10])], raw := [], oplog := [{ rowid := 1, tablename := "main.parent", optype := OpType.update, primaryKey := [("id", SqlValue.int 1)], newRow := some [("id", SqlValue.int 1), ("value", SqlValue.text "new local")], oldRow := some [("id", SqlValue.int 1), ("value", SqlValue.text "local")], timestamp := 10, clearTags := [generateTag "client" 10] }], lsn := 0, triggersEnabled := true, nextRowid := 2 }
      { origin := "client", commit_timestamp := 10, changes := [{ rowid := 5, tablename := "main.parent", optype := OpType.update, primaryKey := [("id", SqlValue.int 1)], newRow := some [("id", SqlValue.int 1), ("value", SqlValue.text "incoming")], oldRow := some [("id", SqlValue.int 1), ("value", SqlValue.text "incoming")], timestamp := 10, clearTags := [generateTag "remote" 11, generateTag "client" 10] }], lsn := 2 }) = [] :=
  applyTransaction_roundtrip_noop "client" []
    { rows := [("main.parent", [("id", SqlValue.int 1)], [("id", SqlValue.int 1), ("value", SqlValue.text "incoming")])], shadow := [("main.parent", [("id", SqlValue.int 1)], [generateTag "remote" 11, generateTag "client" 10])], raw := [], oplog := [{ rowid := 1, tablename := "main.parent", optype := OpType.update, primaryKey := [("id", SqlValue.int 1)], newRow := some [("id", SqlValue.int 1), ("value", SqlValue.text "new local")], oldRow := some [("id", SqlValue.int 1), ("value", SqlValue.text "local")], timestamp := 10, clearTags := [generateTag "client" 10] }], lsn := 0, triggersEnabled := true, nextRowid := 2 }
    { origin := "client", commit_timestamp := 10, changes := [{ rowid := 5, tablename := "main.parent", optype := OpType.update, primaryKey := [("id", SqlValue.int 1)], newRow := some [("id", SqlValue.int 1), ("value", SqlValue.text "incoming")], oldRow := some [("id", SqlValue.int 1), ("value", SqlValue.text "incoming")], timestamp := 10, clearTags := [generateTag "remote" 11, generateTag "client" 10] }], lsn := 2 }
    { rowid := 5, tablename := "main.parent", optype := OpType.update, primaryKey := [("id", SqlValue.int 1)], newRow := some [("id", SqlValue.int 1), ("value", SqlValue.text "incoming")], oldRow := some [("id", SqlValue.int 1), ("value", SqlValue.text "incoming")], timestamp := 10, clearTags := [generateTag "remote" 11, generateTag "client" 10] }
    [("id", SqlValue.int 1), ("value", SqlValue.text "incoming")]
    rfl rfl (by decide) rfl (by decide) (by decide) (by decide) (by decide)
    (by decide)

/-- C5 (amended): every raw entry a snapshot drains is stamped and appended to
the oplog; a captured INSERT gets exactly the singleton new tag
`generate(clientId, snapshotTimestamp)`; a captured UPDATE or DELETE of a row
that holds a shadow entry at snapshot time gets the new tag together with the
shadow tags; and a captured UPDATE or DELETE of a row with no shadow entry
(a row created inside the same window) keeps an empty clear-tag set. -/
theorem performSnapshot_clearTags (clientId : String) (ts : Nat) (st : SatState)
    (r : RawEntry) (hr : r ∈ st.raw) :
    stampEntry clientId ts st.shadow r ∈ (_performSnapshot clientId ts st).oplog ∧
    (r.optype = OpType.insert →
      (stampEntry clientId ts st.shadow r).clearTags = [generateTag clientId ts]) ∧
    (r.optype ≠ OpType.insert →
      (stampEntry clientId ts st.shadow r).clearTags =
        match getAssoc2 st.shadow r.tablename r.primaryKey with
        | some tags => generateTag clientId ts :: tags
        | none => []) := by
  refine ⟨?_, ?_, ?_⟩
  · simp only [_performSnapshot]
    exact List.mem_append_right _ (List.mem_map_of_mem _ hr)
  · intro hop
    simp [stampEntry, hop]
  · intro hop
    cases hopt : r.optype with
    | insert => exact absurd hopt hop
    | update =>
        cases hs : getAssoc2 st.shadow r.tablename r.primaryKey <;>
          simp [stampEntry, hopt, hs]
    | delete =>
        cases hs : getAssoc2 st.shadow r.tablename r.primaryKey <;>
          simp [stampEntry, hopt, hs]
    | upsert =>
        cases hs : getAssoc2 st.shadow r.tablename r.primaryKey <;>
          simp [stampEntry, hopt, hs]
    | gone =>
        cases hs : getAssoc2 st.shadow r.tablename r.primaryKey <;>
          simp [stampEntry, hopt, hs]

/-- Counterexample to C5 as stated: in the window INSERT id=1 then DELETE id=1
with no pre-existing shadow row, the snapshot stamps the DELETE with an empty
clear-tag set, not with `shadow.tags ∪ {generate(clientId, snapshotTimestamp)}`
which would be the singleton new tag. This is the DELETE-after-DELETE test
expectation (`delete1.clearTags = '[]'`). -/
theorem performSnapshot_clearTags_spec_counterexample :
    ((_performSnapshot "client" 100
      { rows := [], shadow := [],
        raw := [{ rowid := 0, tablename := "main.parent", optype := OpType.insert, primaryKey := [("id", SqlValue.int 1)], newRow := some [("id", SqlValue.int 1), ("value", SqlValue.text "val1")], oldRow := none },
                { rowid := 1, tablename := "main.parent", optype := OpType.delete, primaryKey := [("id", SqlValue.int 1)], newRow := none, oldRow := some [("id", SqlValue.int 1)] }],
        oplog := [], lsn := 0, triggersEnabled := true, nextRowid := 2 }).oplog.map
      OplogEntry.clearTags) = [[generateTag "client" 100], []] ∧
    ((_performSnapshot "client" 100
      { rows := [], shadow := [],
        raw := [{ rowid := 0, tablename := "main.parent", optype := OpType.insert, primaryKey := [("id", SqlValue.int 1)], newRow := some [("id", SqlValue.int 1), ("value", SqlValue.text "val1")], oldRow := none },
                { rowid := 1, tablename := "main.parent", optype := OpType.delete, primaryKey := [("id", SqlValue.int 1)], newRow := none, oldRow := some [("id", SqlValue.int 1)] }],
        oplog := [], lsn := 0, triggersEnabled := true, nextRowid := 2 }).oplog.map
      OplogEntry.clearTags) ≠ [[generateTag "client" 100], [generateTag "client" 100]] := by
  constructor
  · decide
  · decide

/-- Witness for the amended C5: a local DELETE of a row whose shadow entry
carries one remote tag is stamped with the new client tag followed by the
shadow tags. -/
theorem performSnapshot_clearTags_witness :
    stampEntry "client" 200
      [("main.parent", [("id", SqlValue.int 2)], [generateTag "remote" 50])]
      { rowid := 0, tablename := "main.parent", optype := OpType.delete, primaryKey := [("id", SqlValue.int 2)], newRow := none, oldRow := some [("id", SqlValue.int 2)] } ∈
      (_performSnapshot "client" 200
        { rows := [("main.parent", [("id", SqlValue.int 2)], [("id", SqlValue.int 2)])],
          shadow := [("main.parent", [("id", SqlValue.int 2)], [generateTag "remote" 50])],
          raw := [{ rowid := 0, tablename := "main.parent", optype := OpType.delete, primaryKey := [("id", SqlValue.int 2)], newRow := none, oldRow := some [("id", SqlValue.int 2)] }],
          oplog := [], lsn := 0, triggersEnabled := true, nextRowid := 1 }).oplog ∧
    (stampEntry "client" 200
      [("main.parent", [("id", SqlValue.int 2)], [generateTag "remote" 50])]
      { rowid := 0, tablename := "main.parent", optype := OpType.delete, primaryKey := [("id", SqlValue.int 2)], newRow := none, oldRow := some [("id", SqlValue.int 2)] }).clearTags =
      [generateTag "client" 200, generateTag "remote" 50] := by
  obtain ⟨h1, _, h3⟩ := performSnapshot_clearTags "client" 200
    { rows := [("main.parent", [("id", SqlValue.int 2)], [("id", SqlValue.int 2)])],
      shadow := [("main.parent", [("id", SqlValue.int 2)], [generateTag "remote" 50])],
      raw := [{ rowid := 0, tablename := "main.parent", optype := OpType.delete, primaryKey := [("id", SqlValue.int 2)], newRow := none, oldRow := some [("id", SqlValue.int 2)] }],
      oplog := [], lsn := 0, triggersEnabled := true, nextRowid := 1 }
    { rowid := 0, tablename := "main.parent", optype := OpType.delete, primaryKey := [("id", SqlValue.int 2)], newRow := none, oldRow := some [("id", SqlValue.int 2)] }
    (by decide)
  exact ⟨h1, (h3 (by decide)).trans (by decide)⟩

/-- C7: when applying the initial data of a shape subscription fails (here: a
change names a table unknown to the relations cache), the synced future
rejects with the error, no row of the attempt is stored in the subscribed
tables, and the persisted subscriptions state ends with active, known,
unfulfilled and unsubscribes all empty. -/
theorem subscribe_failure_gc (rels : RelationsCache) (st : ShapeDb) (key : String)
    (shapes : List Shape) (data : List (String × Row)) (c : String × Row)
    (hc : c ∈ data) (hunknown : knownTable rels c.1 = false) :
    (subscribeApply rels st key shapes data).2 =
      SyncedResult.err SatelliteErrorCode.SHAPE_DELIVERY_ERROR ∧
    (∀ d ∈ data, d ∉ (subscribeApply rels st key shapes data).1.rows) ∧
    (subscribeApply rels st key shapes data).1.subs.active = [] ∧
    (subscribeApply rels st key shapes data).1.subs.known = [] ∧
    (subscribeApply rels st key shapes data).1.subs.unfulfilled = [] ∧
    (subscribeApply rels st key shapes data).1.subs.unsubscribes = [] := by
  have ha : data.all (fun ch => knownTable rels ch.1) = false := by
    apply Bool.eq_false_iff.mpr
    intro hall
    have := List.all_eq_true.mp hall c hc
    rw [hunknown] at this
    exact Bool.noConfusion this
  have hok : applyShapeDataOk rels st.rows data = false := by
    rw [applyShapeDataOk, ha, Bool.false_and]
  have hres : subscribeApply rels st key shapes data =
      ({ rows := [], subs := emptySubsState },
       SyncedResult.err SatelliteErrorCode.SHAPE_DELIVERY_ERROR) := by
    rw [subscribeApply, hok]
    rfl
  rw [hres]
  refine ⟨rfl, ?_, rfl, rfl, rfl, rfl⟩
  intro d _
  exact List.not_mem_nil d

/-- Witness for C7: subscribing to the unknown table `another` after a
successful `parent` subscription garbage-collects all shape state. -/
theorem subscribe_failure_gc_witness :
    (subscribeApply
      [{ table := "parent", pkCols := ["id"], columns := [{ name := "id", dflt := none }], fks := [] }]
      { rows := [("parent", [("id", SqlValue.int 1)])],
        subs := { active := [("k1", [{ tablename := "parent" }])], known := [],
                  unfulfilled := [], unsubscribes := [] } }
      "k2" [{ tablename := "another" }] [("another", [])]).2 =
      SyncedResult.err SatelliteErrorCode.SHAPE_DELIVERY_ERROR ∧
    ("another", ([] : Row)) ∉ (subscribeApply
      [{ table := "parent", pkCols := ["id"], columns := [{ name := "id", dflt := none }], fks := [] }]
      { rows := [("parent", [("id", SqlValue.int 1)])],
        subs := { active := [("k1", [{ tablename := "parent" }])], known := [],
                  unfulfilled := [], unsubscribes := [] } }
      "k2" [{ tablename := "another" }] [("another", [])]).1.rows ∧
    (subscribeApply
      [{ table := "parent", pkCols := ["id"], columns := [{ name := "id", dflt := none }], fks := [] }]
      { rows := [("parent", [("id", SqlValue.int 1)])],
        subs := { active := [("k1", [{ tablename := "parent" }])], known := [],
                  unfulfilled := [], unsubscribes := [] } }
      "k2" [{ tablename := "another" }] [("another", [])]).1.subs.active = [] := by
  obtain ⟨h1, h2, h3, _, _, _⟩ := subscribe_failure_gc
    [{ table := "parent", pkCols := ["id"], columns := [{ name := "id", dflt := none }], fks := [] }]
    { rows := [("parent", [("id", SqlValue.int 1)])],
      subs := { active := [("k1", [{ tablename := "parent" }])], known := [],
                unfulfilled := [], unsubscribes := [] } }
    "k2" [{ tablename := "another" }] [("another", [])] ("another", [])
    (by decide) (by decide)
  exact ⟨h1, h2 ("another", []) (by decide), h3⟩

/-- C8: while one snapshot is in flight, a second direct `_performSnapshot`
call fails with a SatelliteError of code INTERNAL and message
`already performing snapshot`, while two calls through the throttled variant
during the same in-flight snapshot both resolve without error (the later one
is coalesced onto the next snapshot). -/
theorem snapshotMutex_direct_fails_throttled_coalesces (m : SnapshotSched)
    (h : m.performingSnapshot = true) :
    (runSnapshotCalls m [SnapCall.direct]).1 =
      [Except.error { code := SatelliteErrorCode.INTERNAL,
                      message := "already performing snapshot" }] ∧
    (runSnapshotCalls m [SnapCall.throttled, SnapCall.throttled]).1 =
      [Except.ok (), Except.ok ()] := by
  constructor
  · simp [runSnapshotCalls, snapshotCallStep, h]
  · simp [runSnapshotCalls, snapshotCallStep, h]

/-- Witness for C8 with a snapshot in flight and nothing queued. -/
theorem snapshotMutex_direct_fails_throttled_coalesces_witness :
    (runSnapshotCalls { performingSnapshot := true, queued := false }
      [SnapCall.direct]).1 =
      [Except.error { code := SatelliteErrorCode.INTERNAL,
                      message := "already performing snapshot" }] ∧
    (runSnapshotCalls { performingSnapshot := true, queued := false }
      [SnapCall.throttled, SnapCall.throttled]).1 =
      [Except.ok (), Except.ok ()] :=
  snapshotMutex_direct_fails_throttled_coalesces
    { performingSnapshot := true, queued := false } rfl

/-- C9: a pending `connectWithBackoff` future fails with error code
CONNECTION_CANCELLED_BY_DISCONNECT exactly when `disconnect()` is called
before any connection attempt succeeds: after some number of retryable
failures the next observed event is the disconnect. -/
theorem connectWithBackoff_cancelled_iff (tr : List ConnEvent) :
    connectWithBackoff tr =
      ConnOutcome.failedWith SatelliteErrorCode.CONNECTION_CANCELLED_BY_DISCONNECT ↔
    ∃ n, (∀ ev ∈ tr.take n, ev = ConnEvent.retryableFailure) ∧
      tr.get? n = some ConnEvent.disconnectCall := by
  induction tr with
  | nil =>
      constructor
      · intro h
        exact absurd h (by decide)
      · rintro ⟨n, -, hg⟩
        rw [List.get?_nil] at hg
        exact Option.noConfusion hg
  | cons ev rest ih =>
      cases ev with
      | attemptSucceeds =>
          constructor
          · intro h
            rw [show connectWithBackoff (ConnEvent.attemptSucceeds :: rest) =
              ConnOutcome.connected from rfl] at h
            exact absurd h (by decide)
          · rintro ⟨n, hall, hg⟩
            cases n with
            | zero =>
                rw [List.get?_cons_zero] at hg
                injection hg with hg
                exact ConnEvent.noConfusion hg
            | succ m =>
                have := hall ConnEvent.attemptSucceeds
                  (by rw [List.take_succ_cons]; exact List.mem_cons_self _ _)
                exact absurd this (by decide)
      | disconnectCall =>
          constructor
          · intro _
            refine ⟨0, ?_, ?_⟩
            · intro e he
              rw [List.take_zero] at he
              exact absurd he (List.not_mem_nil e)
            · rw [List.get?_cons_zero]
          · intro _
            rfl
      | retryableFailure =>
          rw [show connectWithBackoff (ConnEvent.retryableFailure :: rest) =
            connectWithBackoff rest from rfl, ih]
          constructor
          · rintro ⟨n, hall, hg⟩
            refine ⟨n + 1, ?_, ?_⟩
            · intro e he
              rw [List.take_succ_cons] at he
              rcases List.mem_cons.mp he with hh | hh
              · rw [hh]
              · exact hall e hh
            · rw [List.get?_cons_succ]
              exact hg
          · rintro ⟨n, hall, hg⟩
            cases n with
            | zero =>
                rw [List.get?_cons_zero] at hg
                injection hg with hg
                exact absurd hg (by decide)
            | succ m =>
                refine ⟨m, ?_, ?_⟩
                · intro e he
                  exact hall e (by rw [List.take_succ_cons]; exact
                    List.mem_cons_of_mem _ he)
                · rw [List.get?_cons_succ] at hg
                  exact hg

/-- Witness for C9: one retryable failure followed by a disconnect cancels the
pending connection with CONNECTION_CANCELLED_BY_DISCONNECT. -/
theorem connectWithBackoff_cancelled_iff_witness :
    connectWithBackoff [ConnEvent.retryableFailure, ConnEvent.disconnectCall] =
      ConnOutcome.failedWith SatelliteErrorCode.CONNECTION_CANCELLED_BY_DISCONNECT :=
  (connectWithBackoff_cancelled_iff
    [ConnEvent.retryableFailure, ConnEvent.disconnectCall]).mpr
    ⟨1, by decide, rfl⟩

theorem rowLookup_applyIncomingInsertRow (cols : List ColumnInfo) (record : Row)
    (c : String) :
    alookup (cols.map (fun ci =>
      (ci.name,
        match rowLookup record ci.name with
        | some v => v
        | none => ci.dflt.getD SqlValue.null))) c =
      (cols.find? (fun ci => decide (ci.name = c))).map (fun ci =>
        match rowLookup record c with
        | some v => v
        | none => ci.dflt.getD SqlValue.null) := by
  induction cols with
  | nil => rfl
  | cons ci rest ih =>
      rw [List.map_cons, alookup_cons]
      by_cases hc : ci.name = c
      · have hfpos : List.find? (fun x => decide (x.name = c)) (ci :: rest) =
            some ci :=
          List.find?_cons_of_pos _ (decide_eq_true hc)
        rw [if_pos hc, hfpos, Option.map_some', hc]
      · have hfneg : List.find? (fun x => decide (x.name = c)) (ci :: rest) =
            List.find? (fun x => decide (x.name = c)) rest :=
          List.find?_cons_of_neg _ (fun hdec => hc (of_decide_eq_true hdec))
        rw [if_neg hc, hfneg, ih]

/-- C10: applying an incoming INSERT for a table whose column carries a schema
default stores the default value when the record omits the column, stores NULL
when the record supplies an explicit null, and the two records therefore
produce different stored rows. -/
theorem applyIncomingInsert_default_vs_null (rel : Relation) (c : String)
    (d : SqlValue) (rec1 rec2 : Row)
    (hfind : rel.columns.find? (fun ci => decide (ci.name = c)) =
      some { name := c, dflt := some d })
    (homit : rowLookup rec1 c = none)
    (hnull : rowLookup rec2 c = some SqlValue.null)
    (hd : d ≠ SqlValue.null) :
    rowLookup (applyIncomingInsertRow rel rec1) c = some d ∧
    rowLookup (applyIncomingInsertRow rel rec2) c = some SqlValue.null ∧
    rowLookup (applyIncomingInsertRow rel rec1) c ≠
      rowLookup (applyIncomingInsertRow rel rec2) c := by
  have h1 : rowLookup (applyIncomingInsertRow rel rec1) c = some d := by
    rw [applyIncomingInsertRow, rowLookup, rowLookup_applyIncomingInsertRow,
      hfind, Option.map_some', homit]
    rfl
  have h2 : rowLookup (applyIncomingInsertRow rel rec2) c = some SqlValue.null := by
    rw [applyIncomingInsertRow, rowLookup, rowLookup_applyIncomingInsertRow,
      hfind, Option.map_some', hnull]
  refine ⟨h1, h2, ?_⟩
  rw [h1, h2]
  intro hh
  injection hh with hh
  exact hd hh

/-- Witness for C10 on the `parent` table whose `other` column defaults to 0:
omitting `other` stores 0, an explicit null stores NULL. -/
theorem applyIncomingInsert_default_vs_null_witness :
    rowLookup (applyIncomingInsertRow
      { table := "parent", pkCols := ["id"],
        columns := [{ name := "id", dflt := none }, { name := "value", dflt := none },
          { name := "other", dflt := some (SqlValue.int 0) }],
        fks := [] }
      [("id", SqlValue.int 1234), ("value", SqlValue.text "incoming")]) "other" =
      some (SqlValue.int 0) ∧
    rowLookup (applyIncomingInsertRow
      { table := "parent", pkCols := ["id"],
        columns := [{ name := "id", dflt := none }, { name := "value", dflt := none },
          { name := "other", dflt := some (SqlValue.int 0) }],
        fks := [] }
      [("id", SqlValue.int 1234), ("value", SqlValue.text "incoming"),
        ("other", SqlValue.null)]) "other" = some SqlValue.null ∧
    rowLookup (applyIncomingInsertRow
      { table := "parent", pkCols := ["id"],
        columns := [{ name := "id", dflt := none }, { name := "value", dflt := none },
          { name := "other", dflt := some (SqlValue.int 0) }],
        fks := [] }
      [("id", SqlValue.int 1234), ("value", SqlValue.text "incoming")]) "other" ≠
      rowLookup (applyIncomingInsertRow
        { table := "parent", pkCols := ["id"],
          columns := [{ name := "id", dflt := none }, { name := "value", dflt := none },
            { name := "other", dflt := some (SqlValue.int 0) }],
          fks := [] }
        [("id", SqlValue.int 1234), ("value", SqlValue.text "incoming"),
          ("other", SqlValue.null)]) "other" :=
  applyIncomingInsert_default_vs_null
    { table := "parent", pkCols := ["id"],
      columns := [{ name := "id", dflt := none }, { name := "value", dflt := none },
        { name := "other", dflt := some (SqlValue.int 0) }],
      fks := [] }
    "other" (SqlValue.int 0)
    [("id", SqlValue.int 1234), ("value", SqlValue.text "incoming")]
    [("id", SqlValue.int 1234), ("value", SqlValue.text "incoming"),
      ("other", SqlValue.null)]
    (by decide) (by decide) (by decide) (by decide)
